import Mathlib

/-!
Verification of the analysis-orchestration core of the Abstrakt AI Search
Sensei repository, as a shallow embedding in Lean.

The embedding follows `src/EntitySEOChecker.js` (form state, task planning,
the sequential analysis run, aggregation helpers) and `api/analyze.js`
(the analysis gateway's response decoding).  JavaScript strings are Lean
`String`s, numbers that carry scores are `ℚ`, JS `undefined`/absent fields
are `Option`, and JS truthiness on strings is the test `≠ ""`.  The
sequential `async` run is embedded as a deterministic function of oracles:
one oracle gives the outcome of each `/api/analyze` fetch (indexed by the
position of the call in the run), one gives the outcome of each SEMRush
fetch (indexed by domain), and an `Option Nat` models an unexpected
internal defect (an exception thrown while rendering the query of the
given task), which the `try`/`catch` of `runAnalysis` turns into a
terminal error.
-/

/-! ## Data model: the form state (`formData` in `EntitySEOChecker.js`) -/

/-- One leadership entry of the input form: `{ name: '', title: '' }`. -/
structure Leader where
  name : String
  title : String
deriving DecidableEq

/-- The nested leadership entry of a competitor row. -/
structure CompetitorLeader where
  name : String
  title : String
deriving DecidableEq

/-- One competitor row of the input form:
`{ name: '', website: '', leadership: { name: '', title: '' } }`. -/
structure Competitor where
  name : String
  website : String
  leadership : CompetitorLeader
deriving DecidableEq

/-- The `formData` state object of `EntitySEOChecker.js`. -/
structure FormData where
  companyName : String
  website : String
  industry : String
  keywords : String
  leadership : List Leader
  competitors : List Competitor
deriving DecidableEq

/-- The initial `formData` passed to `useState`. -/
def initialFormData : FormData :=
  { companyName := "", website := "", industry := "", keywords := "",
    leadership := [{ name := "", title := "" }],
    competitors := [{ name := "", website := "",
                      leadership := { name := "", title := "" } }] }

/-- One engine of the `llmOptions` catalog: `{ id, name, color }`. -/
structure LLM where
  id : String
  name : String
  color : String
deriving DecidableEq

/-- The static `llmOptions` catalog of `EntitySEOChecker.js`. -/
def llmOptions : List LLM :=
  [ { id := "chatgpt", name := "ChatGPT", color := "#10a37f" },
    { id := "gemini", name := "Google Gemini", color := "#4285f4" },
    { id := "claude", name := "Claude", color := "#cc785c" },
    { id := "perplexity", name := "Perplexity", color := "#20808d" },
    { id := "copilot", name := "Microsoft Copilot", color := "#00bcf2" } ]

/-- The `selectedLLMs` state object: one boolean per engine id, declared in
the catalog's order (so `Object.entries` iterates it in that order). -/
structure SelectedLLMs where
  chatgpt : Bool
  gemini : Bool
  claude : Bool
  perplexity : Bool
  copilot : Bool
deriving DecidableEq

/-- Whether the engine with the given id is selected. -/
def SelectedLLMs.isSelected (s : SelectedLLMs) (id : String) : Bool :=
  if id = "chatgpt" then s.chatgpt
  else if id = "gemini" then s.gemini
  else if id = "claude" then s.claude
  else if id = "perplexity" then s.perplexity
  else if id = "copilot" then s.copilot
  else false

/-- `selectedLLMList` of `runAnalysis`: `Object.entries(selectedLLMs)` in
declaration order, filtered to the selected ids, each mapped back to its
`llmOptions` entry.  Since the keys of `selectedLLMs` are declared in the
catalog's order and every key has a catalog entry, this is the catalog
filtered by the selection. -/
def selectedLLMList (s : SelectedLLMs) : List LLM :=
  llmOptions.filter fun l => s.isSelected l.id

/-! ## Named filters and the planned total (`runAnalysis`, lines 214-222) -/

/-- `formData.leadership.filter(l => l.name)`: leaders with non-empty name. -/
def namedLeaders (fd : FormData) : List Leader :=
  fd.leadership.filter fun l => l.name ≠ ""

/-- `formData.competitors.filter(c => c.name)`: competitors with non-empty
name. -/
def namedCompetitors (fd : FormData) : List Competitor :=
  fd.competitors.filter fun c => c.name ≠ ""

/-- The `totalQueries` computation of `runAnalysis`, term by term:
company, leadership, leadership press, social sentiment, competitors,
podcast opportunities. -/
def totalQueries (fd : FormData) (llms : List LLM) : Nat :=
  llms.length
    + llms.length * (namedLeaders fd).length
    + llms.length * (namedLeaders fd).length
    + llms.length * (namedLeaders fd).length
    + llms.length * (namedCompetitors fd).length
    + llms.length

/-! ## Query templates (`runAnalysis`, one per analysis type) -/

/-- The company/entity query template (line 243).  A JS conditional on a
string field tests `≠ ""`. -/
def companyQuery (fd : FormData) : String :=
  "Tell me about " ++ fd.companyName
    ++ (if fd.industry ≠ "" then " in the " ++ fd.industry ++ " industry" else "")
    ++ ". "
    ++ (if fd.website ≠ "" then "Their website is " ++ fd.website ++ "." else "")
    ++ " "
    ++ (if fd.keywords ≠ "" then "Focus on: " ++ fd.keywords else "")

/-- The leadership-reputation query template (line 268). -/
def leadershipQuery (fd : FormData) (leader : Leader) : String :=
  "Tell me about " ++ leader.name
    ++ (if leader.title ≠ "" then ", " ++ leader.title else "")
    ++ " at " ++ fd.companyName
    ++ ". What is their reputation, thought leadership, and online presence?"

/-- The press-opportunity query template (line 280). -/
def pressQuery (fd : FormData) (leader : Leader) : String :=
  "What press opportunities, media outlets, industry publications, and speaking engagements would be good for "
    ++ leader.name
    ++ (if leader.title ≠ "" then ", " ++ leader.title else "")
    ++ " at " ++ fd.companyName
    ++ (if fd.industry ≠ "" then " in the " ++ fd.industry ++ " industry" else "")
    ++ "? Focus on publications and outlets where they could contribute articles, be interviewed, or be featured."

/-- The social-sentiment query template (line 292). -/
def socialQuery (fd : FormData) (leader : Leader) : String :=
  "Analyze the social media sentiment and online reputation of " ++ leader.name
    ++ (if leader.title ≠ "" then ", " ++ leader.title else "")
    ++ " at " ++ fd.companyName
    ++ ". Look at LinkedIn presence, Twitter/X mentions, industry forums, and any social media discussions. What is the overall sentiment? Are there any concerns or particularly positive mentions?"

/-- The podcast-opportunity query template (line 309). -/
def podcastQuery (fd : FormData) : String :=
  "What podcasts would be good for executives from " ++ fd.companyName
    ++ (if fd.industry ≠ "" then " in the " ++ fd.industry ++ " industry" else "")
    ++ " to appear on as guests? List specific podcasts with their audience size, topics covered, and why they would be a good fit. Include both industry-specific podcasts and broader business podcasts."

/-- The competitor query template (line 338). -/
def competitorQuery (c : Competitor) : String :=
  "Analyze " ++ c.name
    ++ (if c.website ≠ "" then " (" ++ c.website ++ ")" else "")
    ++ " as a competitor. What is their online presence, backlink profile, and content strategy?"

/-! ## Tasks: one `/api/analyze` call of the run -/

/-- The `analysisType` tag passed to `/api/analyze`. -/
inductive AnalysisType where
  | entity
  | leadership
  | press
  | social
  | podcast
  | competitor
deriving DecidableEq

/-- One analysis task: the arguments of one `analyzeQuery` call. -/
structure AnalysisTask where
  query : String
  llmName : String
  analysisType : AnalysisType
deriving DecidableEq

/-- The ordered list of `analyzeQuery` calls that the loops of
`runAnalysis` issue: company per engine, then per named leader and per
engine the reputation/press/social triple, then podcast per engine, then
per named competitor and per engine one competitor task. -/
def taskList (fd : FormData) (llms : List LLM) : List AnalysisTask :=
  (llms.map fun llm => { query := companyQuery fd, llmName := llm.name, analysisType := .entity })
    ++ ((namedLeaders fd).flatMap fun leader =>
        llms.flatMap fun llm =>
          [ { query := leadershipQuery fd leader, llmName := llm.name, analysisType := .leadership },
            { query := pressQuery fd leader, llmName := llm.name, analysisType := .press },
            { query := socialQuery fd leader, llmName := llm.name, analysisType := .social } ])
    ++ (llms.map fun llm => { query := podcastQuery fd, llmName := llm.name, analysisType := .podcast })
    ++ ((namedCompetitors fd).flatMap fun c =>
        llms.map fun llm => { query := competitorQuery c, llmName := llm.name, analysisType := .competitor })

theorem length_flatMap_const {α β : Type} (l : List α) (f : α → List β) (n : Nat)
    (h : ∀ a ∈ l, (f a).length = n) : (l.flatMap f).length = n * l.length := by
  induction l with
  | nil => simp
  | cons a t ih =>
    simp only [List.flatMap_cons, List.length_append, h a (List.mem_cons_self a t),
      ih fun b hb => h b (List.mem_cons_of_mem a hb), List.length_cons]
    ring

theorem taskList_length (fd : FormData) (llms : List LLM) :
    (taskList fd llms).length = totalQueries fd llms := by
  simp only [taskList, totalQueries, List.length_append, List.length_flatMap,
    List.length_map, Function.comp_def, List.length_cons, List.length_nil,
    List.map_const', List.sum_replicate, smul_eq_mul]
  ring

/-! ## Analysis results and the `/api/analyze` gateway

`AnalysisResult` is the JSON body the front end stores per task.  The
gateway returns free-form JSON, so every score-carrying field is an
`Option`; JS `undefined` is `none`. -/

/-- The analysis-result object stored per engine.  The `parseError` field
models the `_parseError` marker of `api/analyze.js`'s decode fallback
(absent, hence `false`, everywhere else). -/
structure AnalysisResult where
  error : Bool := false
  errorMessage : Option String := none
  summary : Option String := none
  entityFound : Bool := false
  confidenceScore : Option ℚ := none
  sentimentScore : Option ℚ := none
  sentiment : Option String := none
  topSources : List String := []
  recommendations : Option String := none
  parseError : Bool := false
deriving DecidableEq

/-- The sentinel result the client's `analyzeQuery` builds in its `catch`
block (lines 166-176 of `EntitySEOChecker.js`). -/
def sentinelResult (msg : String) : AnalysisResult :=
  { error := true,
    errorMessage := some msg,
    summary := some ("Error: " ++ msg),
    entityFound := false,
    confidenceScore := some 0,
    sentimentScore := some 0,
    sentiment := some "unknown",
    topSources := [],
    recommendations := some "Analysis failed",
    parseError := false }

/-- The fallback body `api/analyze.js` builds when no JSON object can be
decoded from the model's response text (lines 161-173): a non-error result
with both scores 5, sentiment "neutral" and a `_parseError` marker,
returned with HTTP 200. -/
def parseFallback (responseText : String) : AnalysisResult :=
  { error := false,
    errorMessage := none,
    summary := some (if responseText = "" then
        "Analysis completed but response format was unexpected" else responseText),
    entityFound := responseText.length > 100,
    confidenceScore := some 5,
    sentimentScore := some 5,
    sentiment := some "neutral",
    topSources := [],
    recommendations := some "Please try again or refine your search criteria",
    parseError := true }

/-- Outcome of the Anthropic model call inside `api/analyze.js`.  For a
completed call, `decoded` is the result of `cleanText.match(/\x7b[\s\S]*\x7d/)`
plus `JSON.parse`: `some r` when a JSON object decodes from the response
text, `none` when the match or the parse fails (the decode itself is not
re-implemented here, only its outcome). -/
inductive ModelCall where
  | completed (responseText : String) (decoded : Option AnalysisResult)
  | threw (msg : String)
deriving DecidableEq

/-- An HTTP response of `/api/analyze` as the client sees it. -/
inductive ApiResponse where
  | ok (body : AnalysisResult)
  | err (status : Nat) (message : Option String)
deriving DecidableEq

/-- The response-producing tail of the `handler` of `api/analyze.js`: a
decoded JSON object is returned as-is with status 200; a decode failure is
returned as the `parseFallback` body, also with status 200; an exception
from the model call is returned as status 500 with the error message. -/
def analyzeHandler (mc : ModelCall) : ApiResponse :=
  match mc with
  | .completed text decoded =>
      match decoded with
      | some r => .ok r
      | none => .ok (parseFallback text)
  | .threw msg => .err 500 (some msg)

/-- Outcome of one client-side `fetch('/api/analyze', ...)`. -/
inductive FetchOutcome where
  | response (r : ApiResponse)
  | netErr (msg : String)
deriving DecidableEq

/-- The client's `analyzeQuery` (lines 151-178): an ok response's body is
returned as the result; a non-ok response throws
`errorData.message || 'HTTP <status>'` and a network error throws its own
message, both caught and turned into the sentinel result. -/
def analyzeQuery : FetchOutcome → AnalysisResult
  | .response (.ok body) => body
  | .response (.err status message) =>
      sentinelResult (match message with
        | some m => if m = "" then "HTTP " ++ toString status else m
        | none => "HTTP " ++ toString status)
  | .netErr msg => sentinelResult msg

/-! ## The SEMRush backlink gateway -/

/-- Backlink payload returned by `/api/semrush` (its `data` field).  The
orchestration control flow never inspects it, so it is carried as an
abstract payload value. -/
structure SemrushData where
  payload : String
deriving DecidableEq

/-- Outcome of one `fetch('/api/semrush', ...)`: an ok response whose JSON
`data` field may be absent (`mainSemrush?.data || null`), a non-ok
response, or a thrown error. -/
inductive SemrushOutcome where
  | ok (data : Option SemrushData)
  | notOk
  | threw (msg : String)
deriving DecidableEq

/-- `fetchSemrushData` (lines 131-148): an empty domain short-circuits to
`null`; a non-ok response and a thrown fetch both yield `null`; an ok
response yields its (possibly absent) `data` field. -/
def fetchSemrushData (domain : String) (out : SemrushOutcome) : Option SemrushData :=
  if domain = "" then none
  else
    match out with
    | .ok d => d
    | .notOk => none
    | .threw _ => none

/-! ## Aggregation helpers (`calculateAvgScore`, `getOverallSentiment`) -/

/-- One value of a per-engine map: `{ llm, results }`. -/
structure EngineEntry where
  llm : LLM
  results : AnalysisResult
deriving DecidableEq

/-- JS `x || y` on an optional number: `y` when `x` is absent or zero
(falsy), `x` otherwise. -/
def jsOrQ (x : Option ℚ) (y : ℚ) : ℚ :=
  match x with
  | some v => if v = 0 then y else v
  | none => y

/-- The score `calculateAvgScore` reads off one entry:
`r.results?.confidenceScore || r.results?.sentimentScore || 0`. -/
def pickedScore (e : EngineEntry) : ℚ :=
  jsOrQ e.results.confidenceScore (jsOrQ e.results.sentimentScore 0)

/-- `Number.prototype.toFixed(1)`, modelled as exact half-up rounding to
one decimal place (the double's binary rounding noise is not modelled). -/
def toFixed1 (q : ℚ) : ℚ := (⌊10 * q + 1 / 2⌋ : ℚ) / 10

/-- `calculateAvgScore` (lines 426-432): pick each entry's score, keep the
strictly positive ones, return 0 when none remain, else the mean rounded
to one decimal. -/
def calculateAvgScore (byLLM : List EngineEntry) : ℚ :=
  let scores := (byLLM.map pickedScore).filter fun s => 0 < s
  if scores.length = 0 then 0
  else toFixed1 (scores.sum / (scores.length : ℚ))

/-- JS `.map(r => r.results?.sentiment).filter(Boolean)`: the present,
non-empty sentiment strings, in map-iteration order. -/
def sentimentsOf (company : List EngineEntry) : List String :=
  (company.filterMap fun e => e.results.sentiment).filter fun s => s ≠ ""

/-- JS `String.prototype.toLowerCase()`, modelled characterwise (the
source's sentiment values are ASCII). -/
def strToLower (s : String) : String := ⟨s.data.map Char.toLower⟩

/-- One `counts[k] = (counts[k] || 0) + 1` update on the counts object,
modelled as an insertion-ordered association list: an existing key is
incremented in place, a new key is appended. -/
def bumpCount (counts : List (String × Nat)) (k : String) : List (String × Nat) :=
  if counts.any fun p => p.1 = k then
    counts.map fun p => if p.1 = k then (p.1, p.2 + 1) else p
  else counts ++ [(k, 1)]

/-- The seeded counts object `{ positive: 0, neutral: 0, negative: 0 }`. -/
def initCounts : List (String × Nat) :=
  [("positive", 0), ("neutral", 0), ("negative", 0)]

/-- The counts object after `sentiments.forEach(s => counts[s.toLowerCase()]
= (counts[s.toLowerCase()] || 0) + 1)`. -/
def buildCounts (sentiments : List String) : List (String × Nat) :=
  sentiments.foldl (fun c s => bumpCount c (strToLower s)) initCounts

/-- Head of `Object.entries(counts).sort((a, b) => b[1] - a[1])`: the sort
is stable, so the head is the first entry of maximal count in the counts
object's insertion order. -/
def firstMaxEntry (l : List (String × Nat)) : Option (String × Nat) :=
  match l with
  | [] => none
  | x :: xs => some (xs.foldl (fun best p => if best.2 < p.2 then p else best) x)

/-- `getOverallSentiment` (lines 439-448), as a function of the per-engine
company map: extract the truthy sentiments, return "N/A" when none,
otherwise the key of the first maximal entry of the seeded counts object. -/
def getOverallSentiment (company : List EngineEntry) : String :=
  let sentiments := sentimentsOf company
  if sentiments.length = 0 then "N/A"
  else
    match firstMaxEntry (buildCounts sentiments) with
    | some p => p.1
    | none => "N/A"

/-! ## Form-state operations (add/remove leadership and competitors) -/

/-- JS `list.filter((_, i) => i !== index)`. -/
def removeIdx {α : Type} (l : List α) (i : Nat) : List α :=
  (l.enum.filter fun p => p.1 ≠ i).map Prod.snd

/-- `handleInputChange`: update one of the scalar form fields by name. -/
def handleInputChange (fd : FormData) (name value : String) : FormData :=
  if name = "companyName" then { fd with companyName := value }
  else if name = "website" then { fd with website := value }
  else if name = "industry" then { fd with industry := value }
  else if name = "keywords" then { fd with keywords := value }
  else fd

/-- The field update of `handleLeadershipChange` on one leader. -/
def setLeaderField (l : Leader) (field value : String) : Leader :=
  if field = "name" then { l with name := value }
  else if field = "title" then { l with title := value }
  else l

/-- `handleLeadershipChange` (lines 79-83): update one field of the leader
at the given index (the UI only calls it with indices in range). -/
def handleLeadershipChange (fd : FormData) (i : Nat) (field value : String) : FormData :=
  match fd.leadership.get? i with
  | some l => { fd with leadership := fd.leadership.set i (setLeaderField l field value) }
  | none => fd

/-- `addLeadership` (lines 85-92): append an empty leader, but only below
five entries. -/
def addLeadership (fd : FormData) : FormData :=
  if fd.leadership.length < 5 then
    { fd with leadership := fd.leadership ++ [{ name := "", title := "" }] }
  else fd

/-- `removeLeadership` (lines 94-101): drop the entry at the index, but
only above one entry. -/
def removeLeadership (fd : FormData) (i : Nat) : FormData :=
  if fd.leadership.length > 1 then
    { fd with leadership := removeIdx fd.leadership i }
  else fd

/-- The field update of `handleCompetitorChange` on one competitor,
covering the dotted `leadership.name` / `leadership.title` paths the UI
uses. -/
def setCompetitorField (c : Competitor) (field value : String) : Competitor :=
  if field = "leadership.name" then { c with leadership := { c.leadership with name := value } }
  else if field = "leadership.title" then { c with leadership := { c.leadership with title := value } }
  else if field = "name" then { c with name := value }
  else if field = "website" then { c with website := value }
  else c

/-- `handleCompetitorChange` (lines 103-112). -/
def handleCompetitorChange (fd : FormData) (i : Nat) (field value : String) : FormData :=
  match fd.competitors.get? i with
  | some c => { fd with competitors := fd.competitors.set i (setCompetitorField c field value) }
  | none => fd

/-- `addCompetitor` (lines 114-121): append an empty competitor, but only
below three entries. -/
def addCompetitor (fd : FormData) : FormData :=
  if fd.competitors.length < 3 then
    { fd with competitors := fd.competitors ++
        [{ name := "", website := "", leadership := { name := "", title := "" } }] }
  else fd

/-- `removeCompetitor` (lines 123-128): drop the entry at the index, with
no lower bound. -/
def removeCompetitor (fd : FormData) (i : Nat) : FormData :=
  { fd with competitors := removeIdx fd.competitors i }

/-- The operations the input form can perform on the brief. -/
inductive FormOp where
  | input (name value : String)
  | leadershipChange (i : Nat) (field value : String)
  | addLeader
  | removeLeader (i : Nat)
  | competitorChange (i : Nat) (field value : String)
  | addComp
  | removeComp (i : Nat)

/-- Apply one form operation. -/
def applyFormOp (op : FormOp) (fd : FormData) : FormData :=
  match op with
  | .input name value => handleInputChange fd name value
  | .leadershipChange i field value => handleLeadershipChange fd i field value
  | .addLeader => addLeadership fd
  | .removeLeader i => removeLeadership fd i
  | .competitorChange i field value => handleCompetitorChange fd i field value
  | .addComp => addCompetitor fd
  | .removeComp i => removeCompetitor fd i

/-- The size invariant of the form state claimed for the brief. -/
def FormInv (fd : FormData) : Prop :=
  1 ≤ fd.leadership.length ∧ fd.leadership.length ≤ 5 ∧ fd.competitors.length ≤ 3

/-! ## The sequential run (`runAnalysis`, lines 181-356)

The run is embedded as a deterministic function of three oracles: `aw`
gives the outcome of the i-th `analyzeQuery` fetch of the run (0-indexed
by the value of `currentQuery` before its increment), `sem` gives the
outcome of the SEMRush fetch for a domain, and `rx` (an `Option Nat`)
injects an unexpected internal defect: when `rx = some t`, rendering the
query of task `t` throws, which the surrounding `try`/`catch` turns into
a terminal error.  The execution state records, as observations, the
progress events emitted (`setProgress` calls), the analysis tasks
dispatched and the results they returned, all in order. -/

/-- One argument of `setProgress`. -/
structure ProgressEvent where
  current : Nat
  total : Nat
  message : String
deriving DecidableEq

/-- Observations threaded through the run. -/
structure ExecSt where
  log : List ProgressEvent
  calls : List AnalysisTask
  outcomes : List AnalysisResult
deriving DecidableEq

/-- Progress message of a company task (line 240). -/
def companyMsg (fd : FormData) (llm : LLM) : String :=
  "Analyzing " ++ fd.companyName ++ " on " ++ llm.name ++ "..."

/-- Progress message of a leadership-reputation task (line 265). -/
def reputationMsg (leader : Leader) (llm : LLM) : String :=
  "Analyzing " ++ leader.name ++ "'s reputation on " ++ llm.name ++ "..."

/-- Progress message of a press-opportunity task (line 277). -/
def pressMsg (leader : Leader) : String :=
  "Finding press opportunities for " ++ leader.name ++ "..."

/-- Progress message of a social-sentiment task (line 289). -/
def socialMsg (leader : Leader) : String :=
  "Analyzing social sentiment for " ++ leader.name ++ "..."

/-- Progress message of a podcast task (line 306). -/
def podcastMsg (llm : LLM) : String :=
  "Finding podcast opportunities on " ++ llm.name ++ "..."

/-- Progress message of a competitor task (line 335). -/
def competitorMsg (c : Competitor) (llm : LLM) : String :=
  "Analyzing " ++ c.name ++ " on " ++ llm.name ++ "..."

/-- The message carried by the modelled internal defect. -/
def internalDefectMsg : String := "internal defect"

/-- One analysis task of the run: increment the progress counter and emit
the progress event, render the query (the point where the modelled
internal defect may throw), then dispatch the gateway call and record the
result.  The progress counter equals the number of dispatched calls, so
the emitted `current` is `calls.length + 1`. -/
def doTask (aw : Nat → FetchOutcome) (rx : Option Nat) (total : Nat)
    (msg : String) (tk : AnalysisTask) (st : ExecSt) :
    Except String (ExecSt × AnalysisResult) :=
  let t := st.calls.length
  if rx = some t then .error internalDefectMsg
  else
    let r := analyzeQuery (aw t)
    .ok ({ log := st.log ++ [⟨t + 1, total, msg⟩],
           calls := st.calls ++ [tk],
           outcomes := st.outcomes ++ [r] }, r)

/-- A single-task-per-item loop of `runAnalysis` (the company loop, the
podcast loop and the per-competitor engine loop all have this shape): for
each item emit its progress event, dispatch its task and append the built
entry. -/
def simpleLoop {α β : Type} (aw : Nat → FetchOutcome) (rx : Option Nat) (total : Nat)
    (msgOf : α → String) (taskOf : α → AnalysisTask) (entryOf : α → AnalysisResult → β) :
    ExecSt → List β → List α → Except String (ExecSt × List β)
  | st, acc, [] => .ok (st, acc)
  | st, acc, a :: rest =>
    match doTask aw rx total (msgOf a) (taskOf a) st with
    | .error e => .error e
    | .ok (st', r) => simpleLoop aw rx total msgOf taskOf entryOf st' (acc ++ [entryOf a r]) rest

/-- The `leaderResults` object built per leader. -/
structure LeaderReport where
  name : String
  title : String
  byLLM : List (String × EngineEntry)
  pressOpportunities : List (String × EngineEntry)
  socialSentiment : List (String × EngineEntry)
deriving DecidableEq

/-- The `competitorResults` object built per competitor. -/
structure CompetitorReport where
  name : String
  website : String
  byLLM : List (String × EngineEntry)
  semrushData : Option SemrushData
deriving DecidableEq

/-- The `allResults` object `runAnalysis` hands to `setResults`.  The
per-engine maps are insertion-ordered association lists keyed by engine
id. -/
structure Report where
  companyName : String
  website : String
  industry : String
  company : List (String × EngineEntry)
  leadership : List LeaderReport
  competitors : List CompetitorReport
  semrushData : Option SemrushData
  podcastOpportunities : List EngineEntry
deriving DecidableEq

/-- The inner engine loop of the leadership loop (lines 259-295): per
engine, the reputation task, then the press task, then the social task,
each appended to its own per-engine map of the leader's report. -/
def leaderInner (fd : FormData) (aw : Nat → FetchOutcome) (rx : Option Nat) (total : Nat)
    (leader : Leader) :
    ExecSt → LeaderReport → List LLM → Except String (ExecSt × LeaderReport)
  | st, acc, [] => .ok (st, acc)
  | st, acc, llm :: rest =>
    match doTask aw rx total (reputationMsg leader llm)
        { query := leadershipQuery fd leader, llmName := llm.name, analysisType := .leadership } st with
    | .error e => .error e
    | .ok (st1, r1) =>
      match doTask aw rx total (pressMsg leader)
          { query := pressQuery fd leader, llmName := llm.name, analysisType := .press } st1 with
      | .error e => .error e
      | .ok (st2, r2) =>
        match doTask aw rx total (socialMsg leader)
            { query := socialQuery fd leader, llmName := llm.name, analysisType := .social } st2 with
        | .error e => .error e
        | .ok (st3, r3) =>
          leaderInner fd aw rx total leader st3
            { acc with
              byLLM := acc.byLLM ++ [(llm.id, { llm := llm, results := r1 })],
              pressOpportunities := acc.pressOpportunities ++ [(llm.id, { llm := llm, results := r2 })],
              socialSentiment := acc.socialSentiment ++ [(llm.id, { llm := llm, results := r3 })] } rest

/-- The leadership loop (lines 250-298), over the named leaders. -/
def leadersLoop (fd : FormData) (aw : Nat → FetchOutcome) (rx : Option Nat) (total : Nat)
    (llms : List LLM) :
    ExecSt → List LeaderReport → List Leader → Except String (ExecSt × List LeaderReport)
  | st, acc, [] => .ok (st, acc)
  | st, acc, leader :: rest =>
    match leaderInner fd aw rx total leader st
        { name := leader.name, title := leader.title,
          byLLM := [], pressOpportunities := [], socialSentiment := [] } llms with
    | .error e => .error e
    | .ok (st', lr) => leadersLoop fd aw rx total llms st' (acc ++ [lr]) rest

/-- The competitor loop (lines 315-344), over the named competitors: per
competitor an opportunistic SEMRush fetch (no progress event, no counter
increment), then one competitor task per engine. -/
def compsLoop (aw : Nat → FetchOutcome) (rx : Option Nat) (total : Nat)
    (sem : String → SemrushOutcome) (llms : List LLM) :
    ExecSt → List CompetitorReport → List Competitor →
      Except String (ExecSt × List CompetitorReport)
  | st, acc, [] => .ok (st, acc)
  | st, acc, c :: rest =>
    let srd := if c.website ≠ "" then fetchSemrushData c.website (sem c.website) else none
    match simpleLoop aw rx total (competitorMsg c)
        (fun llm => { query := competitorQuery c, llmName := llm.name, analysisType := .competitor })
        (fun llm r => (llm.id, { llm := llm, results := r })) st [] llms with
    | .error e => .error e
    | .ok (st', entries) =>
      compsLoop aw rx total sem llms st'
        (acc ++ [{ name := c.name, website := c.website, byLLM := entries, semrushData := srd }]) rest

/-- Sequencing of the `await`ed stages: a thrown error short-circuits to
the surrounding `catch`. -/
def andThen {formA formB : Type} (x : Except String formA)
    (f : formA → Except String formB) : Except String formB :=
  match x with
  | .error e => .error e
  | .ok a => f a

theorem andThen_ok {formA formB : Type} (a : formA) (f : formA → Except String formB) :
    andThen (.ok a) f = f a := rfl

theorem andThen_err {formA formB : Type} (e : String) (f : formA → Except String formB) :
    andThen (.error e : Except String formA) f = .error e := rfl

/-- The body of the `try` block of `runAnalysis`: the main-company SEMRush
fetch (with its `current = 0` progress event) when a website is given,
then the company, leadership, podcast and competitor loops in that
order. -/
def runBody (fd : FormData) (llms : List LLM) (aw : Nat → FetchOutcome)
    (sem : String → SemrushOutcome) (rx : Option Nat) : Except String (ExecSt × Report) :=
  let total := totalQueries fd llms
  let st0 : ExecSt :=
    { log := if fd.website ≠ "" then [⟨0, total, "Fetching SEMRush data..."⟩] else [],
      calls := [], outcomes := [] }
  let semData := if fd.website ≠ "" then fetchSemrushData fd.website (sem fd.website) else none
  andThen (simpleLoop aw rx total (companyMsg fd)
      (fun llm => { query := companyQuery fd, llmName := llm.name, analysisType := .entity })
      (fun llm r => (llm.id, { llm := llm, results := r })) st0 [] llms) fun p1 =>
  andThen (leadersLoop fd aw rx total llms p1.1 [] (namedLeaders fd)) fun p2 =>
  andThen (simpleLoop aw rx total podcastMsg
      (fun llm => { query := podcastQuery fd, llmName := llm.name, analysisType := .podcast })
      (fun llm r => { llm := llm, results := r }) p2.1 [] llms) fun p3 =>
  andThen (compsLoop aw rx total sem llms p3.1 [] (namedCompetitors fd)) fun p4 =>
  .ok (p4.1,
    { companyName := fd.companyName, website := fd.website, industry := fd.industry,
      company := p1.2, leadership := p2.2, competitors := p4.2,
      semrushData := semData, podcastOpportunities := p3.2 })

/-- What a run leaves behind: the `results`/`error` state plus the
observations. -/
structure RunOutcome where
  results : Option Report
  error : Option String
  calls : List AnalysisTask
  log : List ProgressEvent
  outcomes : List AnalysisResult
deriving DecidableEq

/-- `runAnalysis`: the empty-selection guard (lines 195-199) returns its
validation message before the `try` block; otherwise the body runs and a
thrown error lands in the `catch` block, which records
`Analysis failed: <message>` and leaves `results` at `null`. -/
def runAnalysis (fd : FormData) (s : SelectedLLMs) (aw : Nat → FetchOutcome)
    (sem : String → SemrushOutcome) (rx : Option Nat) : RunOutcome :=
  let llms := selectedLLMList s
  if llms.length = 0 then
    { results := none, error := some "Please select at least one AI search engine",
      calls := [], log := [], outcomes := [] }
  else
    match runBody fd llms aw sem rx with
    | .ok (st, rep) =>
        { results := some rep, error := none,
          calls := st.calls, log := st.log, outcomes := st.outcomes }
    | .error e =>
        { results := none, error := some ("Analysis failed: " ++ e),
          calls := [], log := [], outcomes := [] }

/-! ## Flattening the report back into task order -/

/-- Interleave the three per-engine maps of a leader back into dispatch
order (reputation, press, social per engine). -/
def interleave3 {α : Type} : List α → List α → List α → List α
  | a :: as, b :: bs, c :: cs => a :: b :: c :: interleave3 as bs cs
  | _, _, _ => []

/-- The results of a leader's report in dispatch order. -/
def leaderFlat (lr : LeaderReport) : List AnalysisResult :=
  interleave3 (lr.byLLM.map fun p => p.2.results)
    (lr.pressOpportunities.map fun p => p.2.results)
    (lr.socialSentiment.map fun p => p.2.results)

/-- All analysis results stored in a report, in dispatch order. -/
def reportFlat (rep : Report) : List AnalysisResult :=
  (rep.company.map fun p => p.2.results)
    ++ rep.leadership.flatMap leaderFlat
    ++ (rep.podcastOpportunities.map fun e => e.results)
    ++ (rep.competitors.flatMap fun c => c.byLLM.map fun p => p.2.results)

/-- The number of analysis-result entries a report holds. -/
def reportResultCount (rep : Report) : Nat := (reportFlat rep).length

/-! ## Expected observation sequences -/

/-- The progress messages of the run's tasks, in dispatch order (the same
shape as `taskList`). -/
def msgList (fd : FormData) (llms : List LLM) : List String :=
  (llms.map fun llm => companyMsg fd llm)
    ++ ((namedLeaders fd).flatMap fun leader =>
        llms.flatMap fun llm => [reputationMsg leader llm, pressMsg leader, socialMsg leader])
    ++ (llms.map podcastMsg)
    ++ ((namedCompetitors fd).flatMap fun c => llms.map fun llm => competitorMsg c llm)

/-- The progress events for a run of the given messages, starting after
`k` already-dispatched tasks: the i-th of them carries
`current = k + i + 1`. -/
def mkProg (total : Nat) : Nat → List String → List ProgressEvent
  | _, [] => []
  | k, m :: ms => ⟨k + 1, total, m⟩ :: mkProg total (k + 1) ms

/-- The results of `n` consecutive gateway calls starting at call index
`k`. -/
def outSeg (aw : Nat → FetchOutcome) : Nat → Nat → List AnalysisResult
  | _, 0 => []
  | k, n + 1 => analyzeQuery (aw k) :: outSeg aw (k + 1) n

/-- The entries a single-task-per-item loop builds starting at call index
`k`. -/
def entrySeg {α β : Type} (entryOf : α → AnalysisResult → β) (aw : Nat → FetchOutcome) :
    Nat → List α → List β
  | _, [] => []
  | k, a :: rest => entryOf a (analyzeQuery (aw k)) :: entrySeg entryOf aw (k + 1) rest

/-- One per-engine map of a leader's report: entry `i` holds the result of
call `k + 3*i + off` (`off` = 0 for reputation, 1 for press, 2 for
social). -/
def strideSeg (aw : Nat → FetchOutcome) (off : Nat) :
    Nat → List LLM → List (String × EngineEntry)
  | _, [] => []
  | k, llm :: rest =>
    (llm.id, { llm := llm, results := analyzeQuery (aw (k + off)) }) :: strideSeg aw off (k + 3) rest

/-- The leader reports the leadership loop builds, starting at call index
`k`. -/
def leaderReportsSeg (aw : Nat → FetchOutcome) (llms : List LLM) :
    Nat → List Leader → List LeaderReport
  | _, [] => []
  | k, ld :: rest =>
    { name := ld.name, title := ld.title,
      byLLM := strideSeg aw 0 k llms,
      pressOpportunities := strideSeg aw 1 k llms,
      socialSentiment := strideSeg aw 2 k llms }
      :: leaderReportsSeg aw llms (k + 3 * llms.length) rest

/-- The competitor reports the competitor loop builds, starting at call
index `k`. -/
def compReportsSeg (aw : Nat → FetchOutcome) (sem : String → SemrushOutcome) (llms : List LLM) :
    Nat → List Competitor → List CompetitorReport
  | _, [] => []
  | k, c :: rest =>
    { name := c.name, website := c.website,
      byLLM := entrySeg (fun llm r => (llm.id, { llm := llm, results := r })) aw k llms,
      semrushData := if c.website ≠ "" then fetchSemrushData c.website (sem c.website) else none }
      :: compReportsSeg aw sem llms (k + llms.length) rest

/-! ## Executor lemmas: what each loop contributes -/

theorem mkProg_append (total : Nat) (ms ns : List String) :
    ∀ k, mkProg total k (ms ++ ns) = mkProg total k ms ++ mkProg total (k + ms.length) ns := by
  induction ms with
  | nil => intro k; simp [mkProg]
  | cons m rest ih =>
    intro k
    have h1 : mkProg total k ((m :: rest) ++ ns)
        = ⟨k + 1, total, m⟩ :: mkProg total (k + 1) (rest ++ ns) := rfl
    have h2 : mkProg total k (m :: rest)
        = ⟨k + 1, total, m⟩ :: mkProg total (k + 1) rest := rfl
    rw [h1, h2, ih (k + 1), List.cons_append, List.length_cons]
    have h3 : k + 1 + rest.length = k + (rest.length + 1) := by omega
    rw [h3]

theorem outSeg_append (aw : Nat → FetchOutcome) (m n : Nat) :
    ∀ k, outSeg aw k (m + n) = outSeg aw k m ++ outSeg aw (k + m) n := by
  induction m with
  | zero => intro k; simp [outSeg]
  | succ m ih =>
    intro k
    have h1 : m + 1 + n = (m + n) + 1 := by omega
    rw [h1]
    simp only [outSeg, ih (k + 1), List.cons_append]
    have : k + 1 + m = k + (m + 1) := by omega
    rw [this]

theorem outSeg_length (aw : Nat → FetchOutcome) (n : Nat) :
    ∀ k, (outSeg aw k n).length = n := by
  induction n with
  | zero => intro k; simp [outSeg]
  | succ n ih => intro k; simp [outSeg, ih (k + 1)]

theorem outSeg_get (aw : Nat → FetchOutcome) (n : Nat) :
    ∀ k i, i < n → (outSeg aw k n).get? i = some (analyzeQuery (aw (k + i))) := by
  induction n with
  | zero => intro k i h; omega
  | succ n ih =>
    intro k i h
    match i with
    | 0 => simp [outSeg]
    | i + 1 =>
      simp only [outSeg, List.get?_cons_succ, ih (k + 1) i (by omega)]
      have : k + 1 + i = k + (i + 1) := by omega
      rw [this]

theorem mkProg_get (total : Nat) (ms : List String) :
    ∀ k i, (mkProg total k ms).get? i = (ms.get? i).map fun m => ⟨k + i + 1, total, m⟩ := by
  induction ms with
  | nil => intro k i; simp [mkProg]
  | cons m rest ih =>
    intro k i
    match i with
    | 0 => simp [mkProg]
    | i + 1 =>
      simp only [mkProg, List.get?_cons_succ, ih (k + 1) i]
      have : k + 1 + i = k + (i + 1) := by omega
      rw [this]

theorem entrySeg_map {α β : Type} (entryOf : α → AnalysisResult → β)
    (g : β → AnalysisResult) (hg : ∀ a r, g (entryOf a r) = r) (aw : Nat → FetchOutcome) :
    ∀ (l : List α) k, (entrySeg entryOf aw k l).map g = outSeg aw k l.length := by
  intro l
  induction l with
  | nil => intro k; simp [entrySeg, outSeg]
  | cons a rest ih => intro k; simp [entrySeg, outSeg, hg, ih (k + 1)]

theorem doTask_ok (aw : Nat → FetchOutcome) (rx : Option Nat) (total : Nat)
    (msg : String) (tk : AnalysisTask) (st : ExecSt) (h : rx ≠ some st.calls.length) :
    doTask aw rx total msg tk st =
      .ok ({ log := st.log ++ [⟨st.calls.length + 1, total, msg⟩],
             calls := st.calls ++ [tk],
             outcomes := st.outcomes ++ [analyzeQuery (aw st.calls.length)] },
           analyzeQuery (aw st.calls.length)) := by
  simp [doTask, h]

theorem doTask_err (aw : Nat → FetchOutcome) (rx : Option Nat) (total : Nat)
    (msg : String) (tk : AnalysisTask) (st : ExecSt) (h : rx = some st.calls.length) :
    doTask aw rx total msg tk st = .error internalDefectMsg := by
  simp [doTask, h]

theorem simpleLoop_ok {α β : Type} (aw : Nat → FetchOutcome) (rx : Option Nat) (total : Nat)
    (msgOf : α → String) (taskOf : α → AnalysisTask) (entryOf : α → AnalysisResult → β)
    (l : List α) :
    ∀ (st : ExecSt) (acc : List β),
      (∀ j, st.calls.length ≤ j → j < st.calls.length + l.length → rx ≠ some j) →
      simpleLoop aw rx total msgOf taskOf entryOf st acc l =
        .ok ({ log := st.log ++ mkProg total st.calls.length (l.map msgOf),
               calls := st.calls ++ l.map taskOf,
               outcomes := st.outcomes ++ outSeg aw st.calls.length l.length },
             acc ++ entrySeg entryOf aw st.calls.length l) := by
  induction l with
  | nil => intro st acc h; simp [simpleLoop, mkProg, outSeg, entrySeg]
  | cons a rest ih =>
    intro st acc h
    have hk : rx ≠ some st.calls.length := h st.calls.length le_rfl (by simp)
    have hstep : simpleLoop aw rx total msgOf taskOf entryOf st acc (a :: rest) =
        simpleLoop aw rx total msgOf taskOf entryOf
          { log := st.log ++ [⟨st.calls.length + 1, total, msgOf a⟩],
            calls := st.calls ++ [taskOf a],
            outcomes := st.outcomes ++ [analyzeQuery (aw st.calls.length)] }
          (acc ++ [entryOf a (analyzeQuery (aw st.calls.length))]) rest := by
      rw [simpleLoop, doTask_ok aw rx total (msgOf a) (taskOf a) st hk]
    have hrec := ih
      { log := st.log ++ [⟨st.calls.length + 1, total, msgOf a⟩],
        calls := st.calls ++ [taskOf a],
        outcomes := st.outcomes ++ [analyzeQuery (aw st.calls.length)] }
      (acc ++ [entryOf a (analyzeQuery (aw st.calls.length))])
      (by intro j h1 h2
          simp only [List.length_append, List.length_cons, List.length_nil] at h1 h2
          exact h j (by omega) (by simp only [List.length_cons]; omega))
    rw [hstep, hrec]
    simp [mkProg, outSeg, entrySeg, List.append_assoc]

set_option maxRecDepth 8000 in
theorem leaderInner_ok (fd : FormData) (aw : Nat → FetchOutcome) (rx : Option Nat)
    (total : Nat) (leader : Leader) (llms : List LLM) :
    ∀ (st : ExecSt) (acc : LeaderReport),
      (∀ j, st.calls.length ≤ j → j < st.calls.length + 3 * llms.length → rx ≠ some j) →
      leaderInner fd aw rx total leader st acc llms =
        .ok ({ log := st.log ++ mkProg total st.calls.length
                 (llms.flatMap fun llm => [reputationMsg leader llm, pressMsg leader, socialMsg leader]),
               calls := st.calls ++ (llms.flatMap fun llm =>
                 [{ query := leadershipQuery fd leader, llmName := llm.name, analysisType := .leadership },
                  { query := pressQuery fd leader, llmName := llm.name, analysisType := .press },
                  { query := socialQuery fd leader, llmName := llm.name, analysisType := .social }]),
               outcomes := st.outcomes ++ outSeg aw st.calls.length (3 * llms.length) },
             { acc with
               byLLM := acc.byLLM ++ strideSeg aw 0 st.calls.length llms,
               pressOpportunities := acc.pressOpportunities ++ strideSeg aw 1 st.calls.length llms,
               socialSentiment := acc.socialSentiment ++ strideSeg aw 2 st.calls.length llms }) := by
  induction llms with
  | nil => intro st acc h; simp [leaderInner, mkProg, outSeg, strideSeg]
  | cons llm rest ih =>
    intro st acc h
    have hb : st.calls.length + 3 ≤ st.calls.length + 3 * (llm :: rest).length := by
      simp only [List.length_cons]; omega
    have hk0 : ¬(rx = some st.calls.length) := h _ le_rfl (by omega)
    have hk1 : ¬(rx = some (st.calls.length + 1)) := h _ (by omega) (by omega)
    have hk2 : ¬(rx = some (st.calls.length + 2)) := h _ (by omega) (by omega)
    have hadd2 : st.calls.length + 1 + 1 = st.calls.length + 2 := rfl
    have hadd3 : st.calls.length + 2 + 1 = st.calls.length + 3 := rfl
    have hout : outSeg aw st.calls.length (3 * (rest.length + 1))
        = analyzeQuery (aw st.calls.length) :: analyzeQuery (aw (st.calls.length + 1)) ::
          analyzeQuery (aw (st.calls.length + 1 + 1)) ::
          outSeg aw (st.calls.length + 1 + 1 + 1) (3 * rest.length) := by
      have e1 : 3 * (rest.length + 1) = 3 + 3 * rest.length := by ring
      rw [e1, outSeg_append aw 3 (3 * rest.length) st.calls.length]
      rfl
    simp only [leaderInner, doTask, List.length_append, List.length_cons, List.length_nil,
      Nat.zero_add, Nat.add_zero, if_neg hk0, if_neg hk1, if_neg hk2]
    refine Eq.trans (ih _ _ ?_) ?_
    · intro j h1 h2
      simp only [List.length_append, List.length_cons, List.length_nil, Nat.zero_add] at h1 h2
      refine h j (by omega) ?_
      simp only [List.length_cons] at h2 ⊢
      omega
    · simp only [List.length_append, List.length_cons, List.length_nil, Nat.zero_add,
        Nat.add_zero, hadd2, hadd3, hout, List.flatMap_cons, List.flatMap_def,
        List.append_eq, List.map_cons, List.flatten_cons, strideSeg, mkProg,
        List.append_assoc, List.cons_append, List.nil_append]

set_option maxRecDepth 8000 in
theorem leadersLoop_ok (fd : FormData) (aw : Nat → FetchOutcome) (rx : Option Nat)
    (total : Nat) (llms : List LLM) (leaders : List Leader) :
    ∀ (st : ExecSt) (acc : List LeaderReport),
      (∀ j, st.calls.length ≤ j → j < st.calls.length + 3 * llms.length * leaders.length →
        rx ≠ some j) →
      leadersLoop fd aw rx total llms st acc leaders =
        .ok ({ log := st.log ++ mkProg total st.calls.length
                 (leaders.flatMap fun leader => llms.flatMap fun llm =>
                   [reputationMsg leader llm, pressMsg leader, socialMsg leader]),
               calls := st.calls ++ (leaders.flatMap fun leader => llms.flatMap fun llm =>
                 [{ query := leadershipQuery fd leader, llmName := llm.name, analysisType := .leadership },
                  { query := pressQuery fd leader, llmName := llm.name, analysisType := .press },
                  { query := socialQuery fd leader, llmName := llm.name, analysisType := .social }]),
               outcomes := st.outcomes ++ outSeg aw st.calls.length
                 (3 * llms.length * leaders.length) },
             acc ++ leaderReportsSeg aw llms st.calls.length leaders) := by
  induction leaders with
  | nil => intro st acc h; simp [leadersLoop, mkProg, outSeg, leaderReportsSeg]
  | cons leader rest ih =>
    intro st acc h
    have hlenT : (llms.flatMap fun llm =>
        [({ query := leadershipQuery fd leader, llmName := llm.name, analysisType := .leadership } : AnalysisTask),
         { query := pressQuery fd leader, llmName := llm.name, analysisType := .press },
         { query := socialQuery fd leader, llmName := llm.name, analysisType := .social }]).length
        = 3 * llms.length :=
      length_flatMap_const llms _ 3 fun _ _ => rfl
    have hlenM : (llms.flatMap fun llm =>
        [reputationMsg leader llm, pressMsg leader, socialMsg leader]).length
        = 3 * llms.length :=
      length_flatMap_const llms _ 3 fun _ _ => rfl
    have hinner := leaderInner_ok fd aw rx total leader llms st
      { name := leader.name, title := leader.title,
        byLLM := [], pressOpportunities := [], socialSentiment := [] }
      (by intro j h1 h2
          refine h j h1 ?_
          simp only [List.length_cons]
          have : 3 * llms.length * (rest.length + 1) = 3 * llms.length * rest.length + 3 * llms.length := by ring
          omega)
    have hstep : leadersLoop fd aw rx total llms st acc (leader :: rest) =
        leadersLoop fd aw rx total llms
          { log := st.log ++ mkProg total st.calls.length
              (llms.flatMap fun llm => [reputationMsg leader llm, pressMsg leader, socialMsg leader]),
            calls := st.calls ++ (llms.flatMap fun llm =>
              [{ query := leadershipQuery fd leader, llmName := llm.name, analysisType := .leadership },
               { query := pressQuery fd leader, llmName := llm.name, analysisType := .press },
               { query := socialQuery fd leader, llmName := llm.name, analysisType := .social }]),
            outcomes := st.outcomes ++ outSeg aw st.calls.length (3 * llms.length) }
          (acc ++ [{ name := leader.name, title := leader.title,
                     byLLM := strideSeg aw 0 st.calls.length llms,
                     pressOpportunities := strideSeg aw 1 st.calls.length llms,
                     socialSentiment := strideSeg aw 2 st.calls.length llms }]) rest := by
      rw [leadersLoop, hinner]
      simp [List.nil_append]
    have houtL : outSeg aw st.calls.length (3 * llms.length * (rest.length + 1))
        = outSeg aw st.calls.length (3 * llms.length)
          ++ outSeg aw (st.calls.length + 3 * llms.length) (3 * llms.length * rest.length) := by
      have e1 : 3 * llms.length * (rest.length + 1)
          = 3 * llms.length + 3 * llms.length * rest.length := by ring
      rw [e1, outSeg_append]
    rw [hstep]
    refine Eq.trans (ih _ _ ?_) ?_
    · intro j h1 h2
      simp only [List.length_append, hlenT] at h1 h2
      refine h j (by omega) ?_
      simp only [List.length_cons]
      have : 3 * llms.length * (rest.length + 1) = 3 * llms.length * rest.length + 3 * llms.length := by ring
      omega
    · simp only [List.length_append, List.length_cons, hlenT, hlenM, List.flatMap_cons,
        mkProg_append, houtL, leaderReportsSeg, List.append_assoc, List.cons_append,
        List.nil_append]

set_option maxRecDepth 8000 in
theorem compsLoop_ok (aw : Nat → FetchOutcome) (rx : Option Nat) (total : Nat)
    (sem : String → SemrushOutcome) (llms : List LLM) (comps : List Competitor) :
    ∀ (st : ExecSt) (acc : List CompetitorReport),
      (∀ j, st.calls.length ≤ j → j < st.calls.length + llms.length * comps.length →
        rx ≠ some j) →
      compsLoop aw rx total sem llms st acc comps =
        .ok ({ log := st.log ++ mkProg total st.calls.length
                 (comps.flatMap fun c => llms.map fun llm => competitorMsg c llm),
               calls := st.calls ++ (comps.flatMap fun c => llms.map fun llm =>
                 { query := competitorQuery c, llmName := llm.name, analysisType := .competitor }),
               outcomes := st.outcomes ++ outSeg aw st.calls.length
                 (llms.length * comps.length) },
             acc ++ compReportsSeg aw sem llms st.calls.length comps) := by
  induction comps with
  | nil => intro st acc h; simp [compsLoop, mkProg, outSeg, compReportsSeg]
  | cons c rest ih =>
    intro st acc h
    have hsimple := simpleLoop_ok aw rx total (competitorMsg c)
      (fun llm => ({ query := competitorQuery c, llmName := llm.name, analysisType := .competitor } : AnalysisTask))
      (fun llm r => (llm.id, ({ llm := llm, results := r } : EngineEntry))) llms st []
      (by intro j h1 h2
          refine h j h1 ?_
          simp only [List.length_cons]
          have : llms.length * (rest.length + 1) = llms.length * rest.length + llms.length := by ring
          omega)
    have hstep : compsLoop aw rx total sem llms st acc (c :: rest) =
        compsLoop aw rx total sem llms
          { log := st.log ++ mkProg total st.calls.length (llms.map fun llm => competitorMsg c llm),
            calls := st.calls ++ llms.map fun llm =>
              { query := competitorQuery c, llmName := llm.name, analysisType := .competitor },
            outcomes := st.outcomes ++ outSeg aw st.calls.length llms.length }
          (acc ++ [{ name := c.name, website := c.website,
                     byLLM := entrySeg (fun llm r => (llm.id, { llm := llm, results := r }))
                       aw st.calls.length llms,
                     semrushData := if c.website ≠ "" then
                       fetchSemrushData c.website (sem c.website) else none }]) rest := by
      rw [compsLoop, hsimple]
      simp [List.nil_append]
    have houtC : outSeg aw st.calls.length (llms.length * (rest.length + 1))
        = outSeg aw st.calls.length llms.length
          ++ outSeg aw (st.calls.length + llms.length) (llms.length * rest.length) := by
      have e1 : llms.length * (rest.length + 1)
          = llms.length + llms.length * rest.length := by ring
      rw [e1, outSeg_append]
    rw [hstep]
    refine Eq.trans (ih _ _ ?_) ?_
    · intro j h1 h2
      simp only [List.length_append, List.length_map] at h1 h2
      refine h j (by omega) ?_
      simp only [List.length_cons]
      have : llms.length * (rest.length + 1) = llms.length * rest.length + llms.length := by ring
      omega
    · simp only [List.length_append, List.length_cons, List.length_map, List.flatMap_cons,
        mkProg_append, houtC, compReportsSeg, List.append_assoc, List.cons_append,
        List.nil_append]

set_option maxRecDepth 8000 in
theorem runBody_ok (fd : FormData) (llms : List LLM) (aw : Nat → FetchOutcome)
    (sem : String → SemrushOutcome) (rx : Option Nat)
    (h : ∀ j, j < totalQueries fd llms → rx ≠ some j) :
    runBody fd llms aw sem rx =
      .ok ({ log := (if fd.website ≠ "" then
                [⟨0, totalQueries fd llms, "Fetching SEMRush data..."⟩] else [])
             ++ mkProg (totalQueries fd llms) 0 (msgList fd llms),
             calls := taskList fd llms,
             outcomes := outSeg aw 0 (totalQueries fd llms) },
           { companyName := fd.companyName, website := fd.website, industry := fd.industry,
             company := entrySeg (fun llm r => (llm.id, { llm := llm, results := r })) aw 0 llms,
             leadership := leaderReportsSeg aw llms llms.length (namedLeaders fd),
             competitors := compReportsSeg aw sem llms
               (llms.length + 3 * llms.length * (namedLeaders fd).length + llms.length)
               (namedCompetitors fd),
             semrushData := if fd.website ≠ "" then
               fetchSemrushData fd.website (sem fd.website) else none,
             podcastOpportunities := entrySeg (fun llm r => { llm := llm, results := r }) aw
               (llms.length + 3 * llms.length * (namedLeaders fd).length) llms }) := by
  have htot : totalQueries fd llms
      = llms.length + 3 * llms.length * (namedLeaders fd).length
        + llms.length + llms.length * (namedCompetitors fd).length := by
    simp only [totalQueries]; ring
  have hlenL : ((namedLeaders fd).flatMap fun leader => llms.flatMap fun llm =>
      [({ query := leadershipQuery fd leader, llmName := llm.name, analysisType := .leadership } : AnalysisTask),
       { query := pressQuery fd leader, llmName := llm.name, analysisType := .press },
       { query := socialQuery fd leader, llmName := llm.name, analysisType := .social }]).length
      = 3 * llms.length * (namedLeaders fd).length :=
    length_flatMap_const _ _ (3 * llms.length)
      (fun a _ => length_flatMap_const _ _ 3 fun b _ => rfl)
  have hA := simpleLoop_ok aw rx (totalQueries fd llms) (companyMsg fd)
    (fun llm => ({ query := companyQuery fd, llmName := llm.name, analysisType := .entity } : AnalysisTask))
    (fun llm r => (llm.id, ({ llm := llm, results := r } : EngineEntry))) llms
    { log := if fd.website ≠ "" then
        [⟨0, totalQueries fd llms, "Fetching SEMRush data..."⟩] else [],
      calls := [], outcomes := [] } []
    (by intro j h1 h2
        simp only [List.length_nil, Nat.zero_add] at h1 h2
        exact h j (by omega))
  have hB := leadersLoop_ok fd aw rx (totalQueries fd llms) llms (namedLeaders fd)
    { log := (if fd.website ≠ "" then
        [⟨0, totalQueries fd llms, "Fetching SEMRush data..."⟩] else [])
        ++ mkProg (totalQueries fd llms) 0 (List.map (companyMsg fd) llms),
      calls := List.map (fun llm =>
        ({ query := companyQuery fd, llmName := llm.name, analysisType := .entity } : AnalysisTask)) llms,
      outcomes := outSeg aw 0 llms.length } []
    (by intro j h1 h2
        simp only [List.length_map] at h1 h2
        exact h j (by omega))
  have hC := simpleLoop_ok aw rx (totalQueries fd llms) podcastMsg
    (fun llm => ({ query := podcastQuery fd, llmName := llm.name, analysisType := .podcast } : AnalysisTask))
    (fun llm r => ({ llm := llm, results := r } : EngineEntry)) llms
    { log := ((if fd.website ≠ "" then
        [⟨0, totalQueries fd llms, "Fetching SEMRush data..."⟩] else [])
        ++ mkProg (totalQueries fd llms) 0 (List.map (companyMsg fd) llms))
        ++ mkProg (totalQueries fd llms) llms.length
            ((namedLeaders fd).flatMap fun leader => llms.flatMap fun llm =>
              [reputationMsg leader llm, pressMsg leader, socialMsg leader]),
      calls := List.map (fun llm =>
        ({ query := companyQuery fd, llmName := llm.name, analysisType := .entity } : AnalysisTask)) llms
        ++ ((namedLeaders fd).flatMap fun leader => llms.flatMap fun llm =>
          [{ query := leadershipQuery fd leader, llmName := llm.name, analysisType := .leadership },
           { query := pressQuery fd leader, llmName := llm.name, analysisType := .press },
           { query := socialQuery fd leader, llmName := llm.name, analysisType := .social }]),
      outcomes := outSeg aw 0 llms.length
        ++ outSeg aw llms.length (3 * llms.length * (namedLeaders fd).length) } []
    (by intro j h1 h2
        simp only [List.length_append, List.length_map, hlenL] at h1 h2
        exact h j (by omega))
  have hlenLM : ((namedLeaders fd).flatMap fun leader => llms.flatMap fun llm =>
      [reputationMsg leader llm, pressMsg leader, socialMsg leader]).length
      = 3 * llms.length * (namedLeaders fd).length :=
    length_flatMap_const _ _ (3 * llms.length)
      (fun a _ => length_flatMap_const _ _ 3 fun b _ => rfl)
  have hD := compsLoop_ok aw rx (totalQueries fd llms) sem llms (namedCompetitors fd)
    { log := (((if fd.website ≠ "" then
        [⟨0, totalQueries fd llms, "Fetching SEMRush data..."⟩] else [])
        ++ mkProg (totalQueries fd llms) 0 (List.map (companyMsg fd) llms))
        ++ mkProg (totalQueries fd llms) llms.length
            ((namedLeaders fd).flatMap fun leader => llms.flatMap fun llm =>
              [reputationMsg leader llm, pressMsg leader, socialMsg leader]))
        ++ mkProg (totalQueries fd llms)
            (llms.length + 3 * llms.length * (namedLeaders fd).length)
            (List.map podcastMsg llms),
      calls := (List.map (fun llm =>
        ({ query := companyQuery fd, llmName := llm.name, analysisType := .entity } : AnalysisTask)) llms
        ++ ((namedLeaders fd).flatMap fun leader => llms.flatMap fun llm =>
          [{ query := leadershipQuery fd leader, llmName := llm.name, analysisType := .leadership },
           { query := pressQuery fd leader, llmName := llm.name, analysisType := .press },
           { query := socialQuery fd leader, llmName := llm.name, analysisType := .social }]))
        ++ List.map (fun llm =>
          ({ query := podcastQuery fd, llmName := llm.name, analysisType := .podcast } : AnalysisTask)) llms,
      outcomes := (outSeg aw 0 llms.length
        ++ outSeg aw llms.length (3 * llms.length * (namedLeaders fd).length))
        ++ outSeg aw (llms.length + 3 * llms.length * (namedLeaders fd).length) llms.length } []
    (by intro j h1 h2
        simp only [List.length_append, List.length_map, hlenL] at h1 h2
        exact h j (by omega))
  simp only [runBody, hA, andThen_ok, List.length_nil, List.nil_append, List.length_map,
    List.length_append, hlenL, hlenLM, Nat.zero_add, hB, hC, hD]
  simp only [taskList, msgList, htot, mkProg_append, outSeg_append, List.append_assoc,
    List.length_map, hlenL, hlenLM, Nat.zero_add, List.length_append]

/-! ## Executor lemmas: an internal defect aborts the run -/

theorem simpleLoop_err {α β : Type} (aw : Nat → FetchOutcome) (rx : Option Nat) (total : Nat)
    (msgOf : α → String) (taskOf : α → AnalysisTask) (entryOf : α → AnalysisResult → β)
    (l : List α) :
    ∀ (st : ExecSt) (acc : List β) (j : Nat), rx = some j → st.calls.length ≤ j →
      j < st.calls.length + l.length →
      simpleLoop aw rx total msgOf taskOf entryOf st acc l = .error internalDefectMsg := by
  induction l with
  | nil => intro st acc j hrx hlo hhi; simp only [List.length_nil] at hhi; omega
  | cons a rest ih =>
    intro st acc j hrx hlo hhi
    by_cases h0 : j = st.calls.length
    · subst h0
      rw [simpleLoop, doTask_err aw rx total (msgOf a) (taskOf a) st hrx]
    · have hk : rx ≠ some st.calls.length := by
        rw [hrx]; intro hc; exact h0 (Option.some.injEq _ _ ▸ hc)
      rw [simpleLoop, doTask_ok aw rx total (msgOf a) (taskOf a) st hk]
      exact ih _ _ j hrx
        (by simp only [List.length_append, List.length_cons, List.length_nil, Nat.zero_add]
            omega)
        (by simp only [List.length_append, List.length_cons, List.length_nil, Nat.zero_add]
            simp only [List.length_cons] at hhi
            omega)

set_option maxRecDepth 8000 in
theorem leaderInner_err (fd : FormData) (aw : Nat → FetchOutcome) (rx : Option Nat)
    (total : Nat) (leader : Leader) (llms : List LLM) :
    ∀ (st : ExecSt) (acc : LeaderReport) (j : Nat), rx = some j → st.calls.length ≤ j →
      j < st.calls.length + 3 * llms.length →
      leaderInner fd aw rx total leader st acc llms = .error internalDefectMsg := by
  induction llms with
  | nil => intro st acc j hrx hlo hhi; simp only [List.length_nil] at hhi; omega
  | cons llm rest ih =>
    intro st acc j hrx hlo hhi
    by_cases h0 : j = st.calls.length
    · subst h0
      rw [leaderInner, doTask_err aw rx total (reputationMsg leader llm) _ st hrx]
    · have hk0 : ¬(rx = some st.calls.length) := by
        rw [hrx]; intro hc; exact h0 (Option.some.injEq _ _ ▸ hc)
      by_cases h1 : j = st.calls.length + 1
      · have hp : rx = some (st.calls.length + 1) := by rw [hrx, h1]
        simp only [leaderInner, doTask, List.length_append, List.length_cons,
          List.length_nil, Nat.zero_add, if_neg hk0, if_pos hp]
      · have hk1 : ¬(rx = some (st.calls.length + 1)) := by
          rw [hrx]; intro hc; exact h1 (Option.some.injEq _ _ ▸ hc)
        by_cases h2 : j = st.calls.length + 2
        · have hp : rx = some (st.calls.length + 1 + 1) := by
            rw [hrx, h2]
          simp only [leaderInner, doTask, List.length_append, List.length_cons,
            List.length_nil, Nat.zero_add, if_neg hk0, if_neg hk1, if_pos hp]
        · have hk2 : ¬(rx = some (st.calls.length + 1 + 1)) := by
            rw [hrx]; intro hc
            have := Option.some.inj hc
            omega
          simp only [leaderInner, doTask, List.length_append, List.length_cons,
            List.length_nil, Nat.zero_add, if_neg hk0, if_neg hk1, if_neg hk2]
          refine ih _ _ j hrx ?_ ?_
          · simp only [List.length_append, List.length_cons, List.length_nil, Nat.zero_add]
            omega
          · simp only [List.length_append, List.length_cons, List.length_nil, Nat.zero_add]
            simp only [List.length_cons] at hhi
            have he : 3 * (rest.length + 1) = 3 * rest.length + 3 := by ring
            omega

set_option maxRecDepth 8000 in
theorem leadersLoop_err (fd : FormData) (aw : Nat → FetchOutcome) (rx : Option Nat)
    (total : Nat) (llms : List LLM) (leaders : List Leader) :
    ∀ (st : ExecSt) (acc : List LeaderReport) (j : Nat), rx = some j → st.calls.length ≤ j →
      j < st.calls.length + 3 * llms.length * leaders.length →
      leadersLoop fd aw rx total llms st acc leaders = .error internalDefectMsg := by
  induction leaders with
  | nil => intro st acc j hrx hlo hhi; simp only [List.length_nil] at hhi; omega
  | cons leader rest ih =>
    intro st acc j hrx hlo hhi
    by_cases hin : j < st.calls.length + 3 * llms.length
    · rw [leadersLoop, leaderInner_err fd aw rx total leader llms st _ j hrx hlo hin]
    · have hinner := leaderInner_ok fd aw rx total leader llms st
        { name := leader.name, title := leader.title,
          byLLM := [], pressOpportunities := [], socialSentiment := [] }
        (by intro j2 hj1 hj2
            rw [hrx]; intro hc
            have := Option.some.inj hc
            omega)
      have hlenT : (llms.flatMap fun llm =>
          [({ query := leadershipQuery fd leader, llmName := llm.name, analysisType := .leadership } : AnalysisTask),
           { query := pressQuery fd leader, llmName := llm.name, analysisType := .press },
           { query := socialQuery fd leader, llmName := llm.name, analysisType := .social }]).length
          = 3 * llms.length :=
        length_flatMap_const llms _ 3 fun _ _ => rfl
      rw [leadersLoop, hinner]
      refine ih _ _ j hrx ?_ ?_
      · simp only [List.length_append, hlenT]
        omega
      · simp only [List.length_append, hlenT]
        simp only [List.length_cons] at hhi
        have he : 3 * llms.length * (rest.length + 1)
            = 3 * llms.length * rest.length + 3 * llms.length := by ring
        omega

set_option maxRecDepth 8000 in
theorem compsLoop_err (aw : Nat → FetchOutcome) (rx : Option Nat) (total : Nat)
    (sem : String → SemrushOutcome) (llms : List LLM) (comps : List Competitor) :
    ∀ (st : ExecSt) (acc : List CompetitorReport) (j : Nat), rx = some j →
      st.calls.length ≤ j → j < st.calls.length + llms.length * comps.length →
      compsLoop aw rx total sem llms st acc comps = .error internalDefectMsg := by
  induction comps with
  | nil => intro st acc j hrx hlo hhi; simp only [List.length_nil] at hhi; omega
  | cons c rest ih =>
    intro st acc j hrx hlo hhi
    by_cases hin : j < st.calls.length + llms.length
    · rw [compsLoop,
        simpleLoop_err aw rx total (competitorMsg c)
          (fun llm => ({ query := competitorQuery c, llmName := llm.name, analysisType := .competitor } : AnalysisTask))
          (fun llm r => (llm.id, ({ llm := llm, results := r } : EngineEntry))) llms st [] j hrx hlo hin]
    · have hsimple := simpleLoop_ok aw rx total (competitorMsg c)
        (fun llm => ({ query := competitorQuery c, llmName := llm.name, analysisType := .competitor } : AnalysisTask))
        (fun llm r => (llm.id, ({ llm := llm, results := r } : EngineEntry))) llms st []
        (by intro j2 hj1 hj2
            rw [hrx]; intro hc
            have := Option.some.inj hc
            omega)
      rw [compsLoop, hsimple]
      refine ih _ _ j hrx ?_ ?_
      · simp only [List.length_append, List.length_map]
        omega
      · simp only [List.length_append, List.length_map]
        simp only [List.length_cons] at hhi
        have he : llms.length * (rest.length + 1)
            = llms.length * rest.length + llms.length := by ring
        omega

set_option maxRecDepth 8000 in
theorem runBody_err (fd : FormData) (llms : List LLM) (aw : Nat → FetchOutcome)
    (sem : String → SemrushOutcome) (rx : Option Nat) (j : Nat)
    (hrx : rx = some j) (hj : j < totalQueries fd llms) :
    runBody fd llms aw sem rx = .error internalDefectMsg := by
  have htot : totalQueries fd llms
      = llms.length + 3 * llms.length * (namedLeaders fd).length
        + llms.length + llms.length * (namedCompetitors fd).length := by
    simp only [totalQueries]; ring
  have hlenL : ((namedLeaders fd).flatMap fun leader => llms.flatMap fun llm =>
      [({ query := leadershipQuery fd leader, llmName := llm.name, analysisType := .leadership } : AnalysisTask),
       { query := pressQuery fd leader, llmName := llm.name, analysisType := .press },
       { query := socialQuery fd leader, llmName := llm.name, analysisType := .social }]).length
      = 3 * llms.length * (namedLeaders fd).length :=
    length_flatMap_const _ _ (3 * llms.length)
      (fun a _ => length_flatMap_const _ _ 3 fun b _ => rfl)
  by_cases c1 : j < llms.length
  · have hAerr := simpleLoop_err aw rx (totalQueries fd llms) (companyMsg fd)
      (fun llm => ({ query := companyQuery fd, llmName := llm.name, analysisType := .entity } : AnalysisTask))
      (fun llm r => (llm.id, ({ llm := llm, results := r } : EngineEntry))) llms
      { log := if fd.website ≠ "" then
          [⟨0, totalQueries fd llms, "Fetching SEMRush data..."⟩] else [],
        calls := [], outcomes := [] } [] j hrx
      (by simp only [List.length_nil]; omega)
      (by simp only [List.length_nil]; omega)
    simp only [runBody, hAerr, andThen_err]
  · have hA := simpleLoop_ok aw rx (totalQueries fd llms) (companyMsg fd)
      (fun llm => ({ query := companyQuery fd, llmName := llm.name, analysisType := .entity } : AnalysisTask))
      (fun llm r => (llm.id, ({ llm := llm, results := r } : EngineEntry))) llms
      { log := if fd.website ≠ "" then
          [⟨0, totalQueries fd llms, "Fetching SEMRush data..."⟩] else [],
        calls := [], outcomes := [] } []
      (by intro j2 h1 h2
          simp only [List.length_nil, Nat.zero_add] at h2
          rw [hrx]; intro hc
          have := Option.some.inj hc
          omega)
    by_cases c2 : j < llms.length + 3 * llms.length * (namedLeaders fd).length
    · have hBerr := leadersLoop_err fd aw rx (totalQueries fd llms) llms (namedLeaders fd)
        { log := (if fd.website ≠ "" then
            [⟨0, totalQueries fd llms, "Fetching SEMRush data..."⟩] else [])
            ++ mkProg (totalQueries fd llms) 0 (List.map (companyMsg fd) llms),
          calls := List.map (fun llm =>
            ({ query := companyQuery fd, llmName := llm.name, analysisType := .entity } : AnalysisTask)) llms,
          outcomes := outSeg aw 0 llms.length } [] j hrx
        (by simp only [List.length_map]; omega)
        (by simp only [List.length_map]; omega)
      simp only [runBody, hA, andThen_ok, List.length_nil, List.nil_append, List.length_map,
        List.length_append, Nat.zero_add, hBerr, andThen_err]
    · have hB := leadersLoop_ok fd aw rx (totalQueries fd llms) llms (namedLeaders fd)
        { log := (if fd.website ≠ "" then
            [⟨0, totalQueries fd llms, "Fetching SEMRush data..."⟩] else [])
            ++ mkProg (totalQueries fd llms) 0 (List.map (companyMsg fd) llms),
          calls := List.map (fun llm =>
            ({ query := companyQuery fd, llmName := llm.name, analysisType := .entity } : AnalysisTask)) llms,
          outcomes := outSeg aw 0 llms.length } []
        (by intro j2 h1 h2
            simp only [List.length_map] at h1 h2
            rw [hrx]; intro hc
            have := Option.some.inj hc
            omega)
      by_cases c3 : j < llms.length + 3 * llms.length * (namedLeaders fd).length + llms.length
      · have hCerr := simpleLoop_err aw rx (totalQueries fd llms) podcastMsg
          (fun llm => ({ query := podcastQuery fd, llmName := llm.name, analysisType := .podcast } : AnalysisTask))
          (fun llm r => ({ llm := llm, results := r } : EngineEntry)) llms
          { log := ((if fd.website ≠ "" then
              [⟨0, totalQueries fd llms, "Fetching SEMRush data..."⟩] else [])
              ++ mkProg (totalQueries fd llms) 0 (List.map (companyMsg fd) llms))
              ++ mkProg (totalQueries fd llms) llms.length
                  ((namedLeaders fd).flatMap fun leader => llms.flatMap fun llm =>
                    [reputationMsg leader llm, pressMsg leader, socialMsg leader]),
            calls := List.map (fun llm =>
              ({ query := companyQuery fd, llmName := llm.name, analysisType := .entity } : AnalysisTask)) llms
              ++ ((namedLeaders fd).flatMap fun leader => llms.flatMap fun llm =>
                [{ query := leadershipQuery fd leader, llmName := llm.name, analysisType := .leadership },
                 { query := pressQuery fd leader, llmName := llm.name, analysisType := .press },
                 { query := socialQuery fd leader, llmName := llm.name, analysisType := .social }]),
            outcomes := outSeg aw 0 llms.length
              ++ outSeg aw llms.length (3 * llms.length * (namedLeaders fd).length) } [] j hrx
          (by simp only [List.length_append, List.length_map, hlenL]; omega)
          (by simp only [List.length_append, List.length_map, hlenL]; omega)
        simp only [runBody, hA, andThen_ok, List.length_nil, List.nil_append, List.length_map,
          List.length_append, Nat.zero_add, hB, hlenL, hCerr, andThen_err]
      · have hC := simpleLoop_ok aw rx (totalQueries fd llms) podcastMsg
          (fun llm => ({ query := podcastQuery fd, llmName := llm.name, analysisType := .podcast } : AnalysisTask))
          (fun llm r => ({ llm := llm, results := r } : EngineEntry)) llms
          { log := ((if fd.website ≠ "" then
              [⟨0, totalQueries fd llms, "Fetching SEMRush data..."⟩] else [])
              ++ mkProg (totalQueries fd llms) 0 (List.map (companyMsg fd) llms))
              ++ mkProg (totalQueries fd llms) llms.length
                  ((namedLeaders fd).flatMap fun leader => llms.flatMap fun llm =>
                    [reputationMsg leader llm, pressMsg leader, socialMsg leader]),
            calls := List.map (fun llm =>
              ({ query := companyQuery fd, llmName := llm.name, analysisType := .entity } : AnalysisTask)) llms
              ++ ((namedLeaders fd).flatMap fun leader => llms.flatMap fun llm =>
                [{ query := leadershipQuery fd leader, llmName := llm.name, analysisType := .leadership },
                 { query := pressQuery fd leader, llmName := llm.name, analysisType := .press },
                 { query := socialQuery fd leader, llmName := llm.name, analysisType := .social }]),
            outcomes := outSeg aw 0 llms.length
              ++ outSeg aw llms.length (3 * llms.length * (namedLeaders fd).length) } []
          (by intro j2 h1 h2
              simp only [List.length_append, List.length_map, hlenL] at h1 h2
              rw [hrx]; intro hc
              have := Option.some.inj hc
              omega)
        have hDerr := compsLoop_err aw rx (totalQueries fd llms) sem llms (namedCompetitors fd)
          { log := (((if fd.website ≠ "" then
              [⟨0, totalQueries fd llms, "Fetching SEMRush data..."⟩] else [])
              ++ mkProg (totalQueries fd llms) 0 (List.map (companyMsg fd) llms))
              ++ mkProg (totalQueries fd llms) llms.length
                  ((namedLeaders fd).flatMap fun leader => llms.flatMap fun llm =>
                    [reputationMsg leader llm, pressMsg leader, socialMsg leader]))
              ++ mkProg (totalQueries fd llms)
                  (llms.length + 3 * llms.length * (namedLeaders fd).length)
                  (List.map podcastMsg llms),
            calls := (List.map (fun llm =>
              ({ query := companyQuery fd, llmName := llm.name, analysisType := .entity } : AnalysisTask)) llms
              ++ ((namedLeaders fd).flatMap fun leader => llms.flatMap fun llm =>
                [{ query := leadershipQuery fd leader, llmName := llm.name, analysisType := .leadership },
                 { query := pressQuery fd leader, llmName := llm.name, analysisType := .press },
                 { query := socialQuery fd leader, llmName := llm.name, analysisType := .social }]))
              ++ List.map (fun llm =>
                ({ query := podcastQuery fd, llmName := llm.name, analysisType := .podcast } : AnalysisTask)) llms,
            outcomes := (outSeg aw 0 llms.length
              ++ outSeg aw llms.length (3 * llms.length * (namedLeaders fd).length))
              ++ outSeg aw (llms.length + 3 * llms.length * (namedLeaders fd).length) llms.length }
          [] j hrx
          (by simp only [List.length_append, List.length_map, hlenL]; omega)
          (by simp only [List.length_append, List.length_map, hlenL]; omega)
        simp only [runBody, hA, andThen_ok, List.length_nil, List.nil_append, List.length_map,
          List.length_append, Nat.zero_add, hB, hlenL, hC, hDerr, andThen_err]

/-! ## Flattening the built report back into dispatch order -/

theorem strideFlat (aw : Nat → FetchOutcome) (llms : List LLM) :
    ∀ k, interleave3 ((strideSeg aw 0 k llms).map fun p => p.2.results)
      ((strideSeg aw 1 k llms).map fun p => p.2.results)
      ((strideSeg aw 2 k llms).map fun p => p.2.results)
      = outSeg aw k (3 * llms.length) := by
  induction llms with
  | nil => intro k; simp [strideSeg, interleave3, outSeg]
  | cons llm rest ih =>
    intro k
    have hout : outSeg aw k (3 * (llm :: rest).length)
        = analyzeQuery (aw k) :: analyzeQuery (aw (k + 1)) :: analyzeQuery (aw (k + 2)) ::
          outSeg aw (k + 3) (3 * rest.length) := by
      have e1 : 3 * (llm :: rest).length = 3 + 3 * rest.length := by
        simp only [List.length_cons]; ring
      rw [e1, outSeg_append aw 3 (3 * rest.length) k]
      rfl
    simp only [strideSeg, List.map_cons, interleave3, ih (k + 3), hout, Nat.add_zero]

theorem leaderReportsSeg_flat (aw : Nat → FetchOutcome) (llms : List LLM)
    (leaders : List Leader) :
    ∀ k, (leaderReportsSeg aw llms k leaders).flatMap leaderFlat
      = outSeg aw k (3 * llms.length * leaders.length) := by
  induction leaders with
  | nil => intro k; simp [leaderReportsSeg, outSeg]
  | cons ld rest ih =>
    intro k
    have hsplit : outSeg aw k (3 * llms.length * (ld :: rest).length)
        = outSeg aw k (3 * llms.length)
          ++ outSeg aw (k + 3 * llms.length) (3 * llms.length * rest.length) := by
      have e1 : 3 * llms.length * (ld :: rest).length
          = 3 * llms.length + 3 * llms.length * rest.length := by
        simp only [List.length_cons]; ring
      rw [e1, outSeg_append]
    simp only [leaderReportsSeg, List.flatMap_cons, leaderFlat, ih (k + 3 * llms.length),
      hsplit, strideFlat]

theorem compReportsSeg_flat (aw : Nat → FetchOutcome) (sem : String → SemrushOutcome)
    (llms : List LLM) (comps : List Competitor) :
    ∀ k, (compReportsSeg aw sem llms k comps).flatMap (fun c => c.byLLM.map fun p => p.2.results)
      = outSeg aw k (llms.length * comps.length) := by
  have hmap : ∀ k2, (entrySeg (fun llm r => (llm.id, ({ llm := llm, results := r } : EngineEntry)))
      aw k2 llms).map (fun p => p.2.results) = outSeg aw k2 llms.length :=
    fun k2 => entrySeg_map _ _ (fun _ _ => rfl) aw llms k2
  induction comps with
  | nil => intro k; simp [compReportsSeg, outSeg]
  | cons c rest ih =>
    intro k
    have hsplit : outSeg aw k (llms.length * (c :: rest).length)
        = outSeg aw k llms.length
          ++ outSeg aw (k + llms.length) (llms.length * rest.length) := by
      have e1 : llms.length * (c :: rest).length
          = llms.length + llms.length * rest.length := by
        simp only [List.length_cons]; ring
      rw [e1, outSeg_append]
    simp only [compReportsSeg, List.flatMap_cons, ih (k + llms.length), hsplit, hmap]

/-- The report a defect-free run builds, as a function of the oracles. -/
def runReport (fd : FormData) (llms : List LLM) (aw : Nat → FetchOutcome)
    (sem : String → SemrushOutcome) : Report :=
  { companyName := fd.companyName, website := fd.website, industry := fd.industry,
    company := entrySeg (fun llm r => (llm.id, { llm := llm, results := r })) aw 0 llms,
    leadership := leaderReportsSeg aw llms llms.length (namedLeaders fd),
    competitors := compReportsSeg aw sem llms
      (llms.length + 3 * llms.length * (namedLeaders fd).length + llms.length)
      (namedCompetitors fd),
    semrushData := if fd.website ≠ "" then
      fetchSemrushData fd.website (sem fd.website) else none,
    podcastOpportunities := entrySeg (fun llm r => { llm := llm, results := r }) aw
      (llms.length + 3 * llms.length * (namedLeaders fd).length) llms }

theorem runReport_flat (fd : FormData) (llms : List LLM) (aw : Nat → FetchOutcome)
    (sem : String → SemrushOutcome) :
    reportFlat (runReport fd llms aw sem) = outSeg aw 0 (totalQueries fd llms) := by
  have hmapC : (entrySeg (fun llm r => (llm.id, ({ llm := llm, results := r } : EngineEntry)))
      aw 0 llms).map (fun p => p.2.results) = outSeg aw 0 llms.length :=
    entrySeg_map _ _ (fun _ _ => rfl) aw llms 0
  have hmapP : (entrySeg (fun llm r => ({ llm := llm, results := r } : EngineEntry)) aw
      (llms.length + 3 * llms.length * (namedLeaders fd).length) llms).map
        (fun e => e.results)
      = outSeg aw (llms.length + 3 * llms.length * (namedLeaders fd).length) llms.length :=
    entrySeg_map _ _ (fun _ _ => rfl) aw llms _
  rw [show totalQueries fd llms
      = llms.length + (3 * llms.length * (namedLeaders fd).length
        + (llms.length + llms.length * (namedCompetitors fd).length)) from by
    simp only [totalQueries]; ring]
  simp only [reportFlat, runReport, hmapC, hmapP, leaderReportsSeg_flat, compReportsSeg_flat,
    outSeg_append, Nat.zero_add, List.append_assoc]

/-! ## The run as a whole -/

theorem runAnalysis_none_eq (fd : FormData) (s : SelectedLLMs) (aw : Nat → FetchOutcome)
    (sem : String → SemrushOutcome) (h : ¬ (selectedLLMList s).length = 0) :
    runAnalysis fd s aw sem none =
      { results := some (runReport fd (selectedLLMList s) aw sem),
        error := none,
        calls := taskList fd (selectedLLMList s),
        log := (if fd.website ≠ "" then
            [⟨0, totalQueries fd (selectedLLMList s), "Fetching SEMRush data..."⟩] else [])
          ++ mkProg (totalQueries fd (selectedLLMList s)) 0 (msgList fd (selectedLLMList s)),
        outcomes := outSeg aw 0 (totalQueries fd (selectedLLMList s)) } := by
  have hok := runBody_ok fd (selectedLLMList s) aw sem none
    (fun j hj hc => Option.noConfusion hc)
  simp only [runAnalysis, if_neg h, hok, runReport]

theorem runAnalysis_defect_eq (fd : FormData) (s : SelectedLLMs) (aw : Nat → FetchOutcome)
    (sem : String → SemrushOutcome) (j : Nat) (h : ¬ (selectedLLMList s).length = 0)
    (hj : j < totalQueries fd (selectedLLMList s)) :
    runAnalysis fd s aw sem (some j) =
      { results := none, error := some ("Analysis failed: " ++ internalDefectMsg),
        calls := [], log := [], outcomes := [] } := by
  have herr := runBody_err fd (selectedLLMList s) aw sem (some j) j rfl hj
  simp only [runAnalysis, if_neg h, herr]

/-! ## Average-score lemmas (C6) -/

/-- Modelled from the claim's words, for comparison with the code: the
score of an entry is `confidenceScore` whenever that field is present
(zero included), falling back to `sentimentScore` only when confidence is
absent. -/
def claimedScore (e : EngineEntry) : ℚ :=
  match e.results.confidenceScore with
  | some c => c
  | none =>
      match e.results.sentimentScore with
      | some sc => sc
      | none => 0

/-- The average as the claim words it: mean over the entries whose
claimed score is positive, rounded to one decimal, 0 when none qualify. -/
def averageScoreClaimed (byLLM : List EngineEntry) : ℚ :=
  let scores := (byLLM.map claimedScore).filter fun s => 0 < s
  if scores.length = 0 then 0
  else toFixed1 (scores.sum / (scores.length : ℚ))

/-- The amended reading of the claim: an entry qualifies with value
`confidenceScore` when that is present and positive; when confidence is
absent or zero the value falls back to `sentimentScore`, qualifying when
that is present and positive; a present negative confidence is used as-is
and so never qualifies. -/
def qualifyingScore (e : EngineEntry) : Option ℚ :=
  match e.results.confidenceScore with
  | some c =>
      if c = 0 then
        match e.results.sentimentScore with
        | some sc => if 0 < sc then some sc else none
        | none => none
      else if 0 < c then some c else none
  | none =>
      match e.results.sentimentScore with
      | some sc => if 0 < sc then some sc else none
      | none => none

/-- The average as amended: mean of the qualifying scores, rounded to one
decimal, 0 when none qualify. -/
def averageScoreAmended (byLLM : List EngineEntry) : ℚ :=
  let scores := byLLM.filterMap qualifyingScore
  if scores.length = 0 then 0
  else toFixed1 (scores.sum / (scores.length : ℚ))

theorem qualifyingScore_eq (e : EngineEntry) :
    qualifyingScore e = if 0 < pickedScore e then some (pickedScore e) else none := by
  unfold qualifyingScore pickedScore jsOrQ
  rcases e.results.confidenceScore with _ | c
  · rcases e.results.sentimentScore with _ | sc
    · norm_num
    · by_cases hz : sc = 0
      · subst hz; norm_num
      · simp only [hz, if_false]
  · by_cases hz : c = 0
    · subst hz
      rcases e.results.sentimentScore with _ | sc
      · norm_num
      · by_cases hsz : sc = 0
        · subst hsz; norm_num
        · simp only [hsz, if_false, if_true, if_pos rfl]
    · simp only [hz, if_false, if_neg hz]

theorem filterMap_qualifying (l : List EngineEntry) :
    l.filterMap qualifyingScore = (l.map pickedScore).filter fun s => 0 < s := by
  induction l with
  | nil => rfl
  | cons e rest ih =>
    simp only [List.filterMap_cons, List.map_cons, List.filter_cons, qualifyingScore_eq]
    by_cases hp : 0 < pickedScore e
    · simp [hp, ih]
    · simp [hp, ih]

/-! ## Majority-sentiment lemmas (C7) -/

/-- Invariant tying the counts object to the processed (lowercased)
sentiments: keys are distinct, each key holds its occurrence count, every
processed sentiment has a key, and every key is seeded or processed. -/
def countsOk (processed : List String) (c : List (String × Nat)) : Prop :=
  (c.map Prod.fst).Nodup
    ∧ (∀ p ∈ c, p.2 = processed.count p.1)
    ∧ (∀ s ∈ processed, s ∈ c.map Prod.fst)
    ∧ (∀ p ∈ c, p.1 ∈ initCounts.map Prod.fst ∨ p.1 ∈ processed)

theorem bump_entry_fst (k : String) (q : String × Nat) :
    (if q.1 = k then (q.1, q.2 + 1) else q).1 = q.1 := by
  by_cases hq : q.1 = k
  · rw [if_pos hq]
  · rw [if_neg hq]

theorem count_append_single_ne (processed : List String) (a k : String) (h : ¬a = k) :
    (processed ++ [k]).count a = processed.count a := by
  rw [List.count_append]
  have : List.count a [k] = 0 := by
    simp only [List.count_cons, List.count_nil, beq_iff_eq, Nat.zero_add]
    simp only [ite_eq_right_iff]
    intro hc
    exact absurd hc.symm h
  omega

theorem count_append_single_eq (processed : List String) (k : String) :
    (processed ++ [k]).count k = processed.count k + 1 := by
  rw [List.count_append]
  simp [List.count_cons, List.count_nil]

theorem bumpCount_ok (processed : List String) (c : List (String × Nat)) (k : String)
    (h : countsOk processed c) : countsOk (processed ++ [k]) (bumpCount c k) := by
  obtain ⟨hnd, hcnt, hmem, horig⟩ := h
  by_cases hin : c.any fun p => p.1 = k
  · have hkmem : k ∈ c.map Prod.fst := by
      rcases List.any_eq_true.mp hin with ⟨q, hq, hqe⟩
      have hqk : q.1 = k := by simpa using hqe
      exact hqk ▸ List.mem_map_of_mem Prod.fst hq
    have hkeys : (c.map fun p => if p.1 = k then (p.1, p.2 + 1) else p).map Prod.fst
        = c.map Prod.fst := by
      rw [List.map_map]
      exact List.map_congr_left fun p _ => bump_entry_fst k p
    refine ⟨?_, ?_, ?_, ?_⟩
    · rw [bumpCount, if_pos hin, hkeys]
      exact hnd
    · intro p hp
      rw [bumpCount, if_pos hin] at hp
      rcases List.mem_map.mp hp with ⟨q, hq, hqe⟩
      by_cases hqk : q.1 = k
      · rw [if_pos hqk] at hqe
        rw [← hqe]
        show q.2 + 1 = (processed ++ [k]).count q.1
        rw [hqk, count_append_single_eq, ← hqk, ← hcnt q hq]
      · rw [if_neg hqk] at hqe
        rw [← hqe, count_append_single_ne processed q.1 k hqk]
        exact hcnt q hq
    · intro s hs
      rw [bumpCount, if_pos hin, hkeys]
      rcases List.mem_append.mp hs with h1 | h1
      · exact hmem s h1
      · have : s = k := by simpa using h1
        exact this ▸ hkmem
    · intro p hp
      rw [bumpCount, if_pos hin] at hp
      rcases List.mem_map.mp hp with ⟨q, hq, hqe⟩
      have hfst : p.1 = q.1 := by rw [← hqe]; exact bump_entry_fst k q
      rcases horig q hq with h1 | h1
      · exact Or.inl (hfst ▸ h1)
      · exact Or.inr (List.mem_append_left [k] (hfst ▸ h1))
  · have hknotin : k ∉ c.map Prod.fst := by
      intro hc
      rcases List.mem_map.mp hc with ⟨q, hq, hqe⟩
      exact hin (List.any_eq_true.mpr ⟨q, hq, by simp [hqe]⟩)
    refine ⟨?_, ?_, ?_, ?_⟩
    · rw [bumpCount, if_neg hin]
      rw [List.map_append, List.nodup_append]
      refine ⟨hnd, by simp, ?_⟩
      intro a ha hb
      have : a = k := by simpa using hb
      exact absurd (this ▸ ha) hknotin
    · intro p hp
      rw [bumpCount, if_neg hin] at hp
      rcases List.mem_append.mp hp with h1 | h1
      · have hne : ¬(p.1 = k) :=
          fun hc => absurd (hc ▸ List.mem_map_of_mem Prod.fst h1) hknotin
        rw [count_append_single_ne processed p.1 k hne]
        exact hcnt p h1
      · have hpk : p = (k, 1) := by simpa using h1
        subst hpk
        show 1 = (processed ++ [k]).count k
        rw [count_append_single_eq]
        have hkproc : k ∉ processed := fun hc => absurd (hmem k hc) hknotin
        rw [List.count_eq_zero.mpr hkproc]
    · intro s hs
      rw [bumpCount, if_neg hin, List.map_append]
      rcases List.mem_append.mp hs with h1 | h1
      · exact List.mem_append_left _ (hmem s h1)
      · have : s = k := by simpa using h1
        subst this
        exact List.mem_append_right _ (by simp)
    · intro p hp
      rw [bumpCount, if_neg hin] at hp
      rcases List.mem_append.mp hp with h1 | h1
      · rcases horig p h1 with h2 | h2
        · exact Or.inl h2
        · exact Or.inr (List.mem_append_left [k] h2)
      · have hpk : p = (k, 1) := by simpa using h1
        subst hpk
        exact Or.inr (List.mem_append_right _ (by simp))

theorem countsOk_foldl (ls : List String) :
    ∀ (processed : List String) (c : List (String × Nat)), countsOk processed c →
      countsOk (processed ++ ls) (ls.foldl bumpCount c) := by
  induction ls with
  | nil => intro processed c h; simpa using h
  | cons a rest ih =>
    intro processed c h
    have h1 := bumpCount_ok processed c a h
    have h2 := ih (processed ++ [a]) (bumpCount c a) h1
    rw [List.append_assoc] at h2
    simpa using h2

theorem buildCounts_ok (sentiments : List String) :
    countsOk (sentiments.map strToLower) (buildCounts sentiments) := by
  have hinit : countsOk [] initCounts := by
    refine ⟨by decide, ?_, by simp, ?_⟩
    · intro p hp
      have hz : p.2 = 0 := by fin_cases hp <;> rfl
      simp [hz]
    · intro p hp
      exact Or.inl (List.mem_map_of_mem Prod.fst hp)
  have := countsOk_foldl (sentiments.map strToLower) [] initCounts hinit
  rw [List.nil_append] at this
  rw [buildCounts, ← List.foldl_map]
  exact this

theorem foldl_best_mem (xs : List (String × Nat)) :
    ∀ x, xs.foldl (fun best p => if best.2 < p.2 then p else best) x = x
      ∨ xs.foldl (fun best p => if best.2 < p.2 then p else best) x ∈ xs := by
  induction xs with
  | nil => intro x; exact Or.inl rfl
  | cons y ys ih =>
    intro x
    rcases ih (if x.2 < y.2 then y else x) with h | h
    · rw [List.foldl_cons, h]
      by_cases hc : x.2 < y.2
      · rw [if_pos hc]; exact Or.inr (by simp)
      · rw [if_neg hc]; exact Or.inl rfl
    · exact Or.inr (List.mem_cons_of_mem y h)

theorem foldl_best_ge_init (xs : List (String × Nat)) :
    ∀ x, x.2 ≤ (xs.foldl (fun best p => if best.2 < p.2 then p else best) x).2 := by
  induction xs with
  | nil => intro x; exact le_rfl
  | cons y ys ih =>
    intro x
    rw [List.foldl_cons]
    refine le_trans ?_ (ih (if x.2 < y.2 then y else x))
    by_cases hc : x.2 < y.2
    · rw [if_pos hc]; omega
    · rw [if_neg hc]

theorem foldl_best_ge (xs : List (String × Nat)) :
    ∀ x p, p ∈ xs → p.2 ≤ (xs.foldl (fun best p => if best.2 < p.2 then p else best) x).2 := by
  induction xs with
  | nil => intro x p hp; cases hp
  | cons y ys ih =>
    intro x p hp
    rw [List.foldl_cons]
    rcases List.mem_cons.mp hp with h | h
    · subst h
      refine le_trans ?_ (foldl_best_ge_init ys (if x.2 < p.2 then p else x))
      by_cases hc : x.2 < p.2
      · rw [if_pos hc]
      · rw [if_neg hc]; omega
    · exact ih (if x.2 < y.2 then y else x) p h

theorem firstMaxEntry_spec (l : List (String × Nat)) (p : String × Nat)
    (h : firstMaxEntry l = some p) : p ∈ l ∧ ∀ q ∈ l, q.2 ≤ p.2 := by
  match l, h with
  | x :: xs, h =>
    have hp : p = xs.foldl (fun best p => if best.2 < p.2 then p else best) x := by
      have := h
      rw [firstMaxEntry] at this
      exact (Option.some.inj this).symm
    constructor
    · rcases foldl_best_mem xs x with h1 | h1
      · rw [hp, h1]; exact List.mem_cons_self x xs
      · exact hp ▸ List.mem_cons_of_mem x h1
    · intro q hq
      rcases List.mem_cons.mp hq with h1 | h1
      · rw [hp, h1]; exact foldl_best_ge_init xs x
      · rw [hp]; exact foldl_best_ge xs x q h1

theorem getOverallSentiment_majority (company : List EngineEntry)
    (h : sentimentsOf company ≠ []) :
    ∀ s ∈ sentimentsOf company,
      ((sentimentsOf company).map strToLower).count (strToLower s)
        ≤ ((sentimentsOf company).map strToLower).count (getOverallSentiment company) := by
  intro s hs
  have hne : ¬(sentimentsOf company).length = 0 := by
    intro hc
    exact h (List.length_eq_zero.mp hc)
  obtain ⟨hnd, hcnt, hmem, horig⟩ := buildCounts_ok (sentimentsOf company)
  have hbne : buildCounts (sentimentsOf company) ≠ [] := by
    intro hc
    have : strToLower s ∈ List.map Prod.fst (buildCounts (sentimentsOf company)) :=
      hmem (strToLower s) (List.mem_map_of_mem strToLower hs)
    rw [hc] at this
    cases this
  obtain ⟨p, hp⟩ : ∃ p, firstMaxEntry (buildCounts (sentimentsOf company)) = some p := by
    match hb : buildCounts (sentimentsOf company), hbne with
    | x :: xs, _ => exact ⟨_, rfl⟩
  obtain ⟨hpmem, hpmax⟩ := firstMaxEntry_spec _ p hp
  have hres : getOverallSentiment company = p.1 := by
    rw [getOverallSentiment, if_neg hne, hp]
  rw [hres, ← hcnt p hpmem]
  have hskey : strToLower s ∈ List.map Prod.fst (buildCounts (sentimentsOf company)) :=
    hmem (strToLower s) (List.mem_map_of_mem strToLower hs)
  rcases List.mem_map.mp hskey with ⟨q, hq, hqe⟩
  rw [← hqe, ← hcnt q hq]
  exact hpmax q hq

/-- Modelled from the claim's words, for comparison with the code: count
sentiments case-insensitively with no pre-seeded keys (so the counts
object's insertion order is first-encountered order), pick the first
maximal entry, and return an "unknown" sentinel when no sentiments are
present. -/
def majoritySentimentClaimed (company : List EngineEntry) : String :=
  let lowered := (sentimentsOf company).map strToLower
  match firstMaxEntry (lowered.foldl bumpCount []) with
  | some p => p.1
  | none => "unknown"

/-! ## Form-invariant lemmas (C10) -/

theorem filter_enumFrom_keep {α : Type} (i : Nat) :
    ∀ (l : List α) (n : Nat), i < n →
      ((List.enumFrom n l).filter fun p => p.1 ≠ i) = List.enumFrom n l := by
  intro l
  induction l with
  | nil => intro n h; rfl
  | cons a t ih =>
    intro n h
    have hne : (n, a).1 ≠ i := by omega
    simp only [List.enumFrom_cons, List.filter_cons, decide_eq_true (by simpa using hne)]
    rw [if_true, ih (n + 1) (by omega)]

theorem filter_enumFrom_length_ge {α : Type} (i : Nat) :
    ∀ (l : List α) (n : Nat),
      l.length - 1 ≤ ((List.enumFrom n l).filter fun p => p.1 ≠ i).length := by
  intro l
  induction l with
  | nil => intro n; simp
  | cons a t ih =>
    intro n
    by_cases hni : n = i
    · subst hni
      simp only [List.enumFrom_cons, List.filter_cons]
      have : ¬((n, a).1 ≠ n) := by simp
      rw [decide_eq_false this, if_neg (by simp)]
      rw [filter_enumFrom_keep n t (n + 1) (by omega), List.enumFrom_length]
      simp
    · simp only [List.enumFrom_cons, List.filter_cons]
      have hne : (n, a).1 ≠ i := by simpa using hni
      rw [decide_eq_true (by simpa using hne), if_pos rfl]
      have := ih (n + 1)
      simp only [List.length_cons]
      omega

theorem removeIdx_length_ge {α : Type} (l : List α) (i : Nat) :
    l.length - 1 ≤ (removeIdx l i).length := by
  rw [removeIdx, List.length_map]
  exact filter_enumFrom_length_ge i l 0

theorem removeIdx_length_le {α : Type} (l : List α) (i : Nat) :
    (removeIdx l i).length ≤ l.length := by
  rw [removeIdx, List.length_map]
  calc (List.filter (fun p => p.1 ≠ i) l.enum).length
      ≤ l.enum.length := List.length_filter_le _ _
    _ = l.length := List.enum_length

theorem formInv_preserved (op : FormOp) (fd : FormData) (h : FormInv fd) :
    FormInv (applyFormOp op fd) := by
  obtain ⟨h1, h2, h3⟩ := h
  cases op with
  | input name value =>
    simp only [applyFormOp, handleInputChange]
    split_ifs <;> exact ⟨h1, h2, h3⟩
  | leadershipChange i field value =>
    simp only [applyFormOp, handleLeadershipChange]
    rcases hg : fd.leadership.get? i with _ | l
    · exact ⟨h1, h2, h3⟩
    · refine ⟨?_, ?_, h3⟩
      · simpa [List.length_set] using h1
      · simpa [List.length_set] using h2
  | addLeader =>
    simp only [applyFormOp, addLeadership]
    split_ifs with hc
    · refine ⟨?_, ?_, h3⟩
      · simp only [List.length_append, List.length_cons, List.length_nil]
        omega
      · simp only [List.length_append, List.length_cons, List.length_nil]
        omega
    · exact ⟨h1, h2, h3⟩
  | removeLeader i =>
    simp only [applyFormOp, removeLeadership]
    split_ifs with hc
    · have hge := removeIdx_length_ge fd.leadership i
      have hle := removeIdx_length_le fd.leadership i
      refine ⟨?_, ?_, h3⟩
      · show 1 ≤ (removeIdx fd.leadership i).length
        omega
      · show (removeIdx fd.leadership i).length ≤ 5
        omega
    · exact ⟨h1, h2, h3⟩
  | competitorChange i field value =>
    simp only [applyFormOp, handleCompetitorChange]
    rcases hg : fd.competitors.get? i with _ | c
    · exact ⟨h1, h2, h3⟩
    · refine ⟨h1, h2, ?_⟩
      simpa [List.length_set] using h3
  | addComp =>
    simp only [applyFormOp, addCompetitor]
    split_ifs with hc
    · refine ⟨h1, h2, ?_⟩
      simp only [List.length_append, List.length_cons, List.length_nil]
      omega
    · exact ⟨h1, h2, h3⟩
  | removeComp i =>
    have hle := removeIdx_length_le fd.competitors i
    exact ⟨h1, h2, by simp only [applyFormOp, removeCompetitor]; omega⟩

/-! ## Remaining small definitions used by the claims -/

/-- The run button's `disabled` condition (line 1162):
`loading || !formData.companyName`. -/
def runButtonDisabled (loading : Bool) (fd : FormData) : Bool :=
  loading || fd.companyName = ""

/-- Whether a fetch outcome is a failure (a thrown error or a non-ok
response). -/
def isFailure : FetchOutcome → Bool
  | .response (.ok _) => false
  | .response (.err _ _) => true
  | .netErr _ => true

theorem analyzeQuery_of_failure (f : FetchOutcome) (h : isFailure f = true) :
    ∃ msg, analyzeQuery f = sentinelResult msg := by
  match f with
  | .response (.ok body) => cases h
  | .response (.err status message) => exact ⟨_, rfl⟩
  | .netErr msg => exact ⟨msg, rfl⟩

theorem msgList_length (fd : FormData) (llms : List LLM) :
    (msgList fd llms).length = totalQueries fd llms := by
  simp only [msgList, totalQueries, List.length_append, List.length_flatMap,
    List.length_map, Function.comp_def, List.length_cons, List.length_nil,
    List.map_const', List.sum_replicate, smul_eq_mul]
  ring

theorem compReportsSeg_semrush (aw : Nat → FetchOutcome) (sem : String → SemrushOutcome)
    (llms : List LLM) (hsem : ∀ d, fetchSemrushData d (sem d) = none) :
    ∀ (comps : List Competitor) (k : Nat) (c : CompetitorReport),
      c ∈ compReportsSeg aw sem llms k comps → c.semrushData = none := by
  intro comps
  induction comps with
  | nil => intro k c hc; cases hc
  | cons c0 rest ih =>
    intro k c hc
    rcases List.mem_cons.mp hc with h1 | h1
    · subst h1
      show (if c0.website ≠ "" then fetchSemrushData c0.website (sem c0.website) else none) = none
      split_ifs
      · exact hsem c0.website
      · rfl
    · exact ih (k + llms.length) c h1

/-! ## Concrete fixtures for witnesses and counterexamples -/

/-- The scenario brief of the spec: Acme, one named leader, no
competitors. -/
def acmeForm : FormData :=
  { companyName := "Acme", website := "", industry := "", keywords := "",
    leadership := [{ name := "Jane", title := "CEO" }], competitors := [] }

/-- The default engine selection (ChatGPT and Gemini). -/
def defaultSelection : SelectedLLMs :=
  { chatgpt := true, gemini := true, claude := false, perplexity := false, copilot := false }

/-- A single-engine selection. -/
def chatgptOnly : SelectedLLMs :=
  { chatgpt := true, gemini := false, claude := false, perplexity := false, copilot := false }

/-- The empty engine selection. -/
def noSelection : SelectedLLMs :=
  { chatgpt := false, gemini := false, claude := false, perplexity := false, copilot := false }

/-- A gateway oracle on which every fetch throws. -/
def failAW : Nat → FetchOutcome := fun _ => .netErr "network down"

/-- A SEMRush oracle on which every fetch returns a non-ok response. -/
def noSem : String → SemrushOutcome := fun _ => .notOk

/-- A per-engine entry with a zero confidence score and a positive
sentiment score. -/
def zeroConfEntry : EngineEntry :=
  { llm := { id := "chatgpt", name := "ChatGPT", color := "#10a37f" },
    results := { confidenceScore := some 0, sentimentScore := some 7 } }

/-- Entries carrying confidence scores 8, 6 and 0. -/
def confEntry8 : EngineEntry :=
  { llm := { id := "chatgpt", name := "ChatGPT", color := "#10a37f" },
    results := { confidenceScore := some 8 } }

def confEntry6 : EngineEntry :=
  { llm := { id := "gemini", name := "Google Gemini", color := "#4285f4" },
    results := { confidenceScore := some 6 } }

def confEntry0 : EngineEntry :=
  { llm := { id := "claude", name := "Claude", color := "#cc785c" },
    results := { confidenceScore := some 0 } }

/-- An error-sentinel entry (zero scores) and an entry with no scores. -/
def errorEntry : EngineEntry :=
  { llm := { id := "chatgpt", name := "ChatGPT", color := "#10a37f" },
    results := sentinelResult "down" }

def emptyEntry : EngineEntry :=
  { llm := { id := "gemini", name := "Google Gemini", color := "#4285f4" },
    results := {} }

/-- Entries whose sentiments are "negative" and "positive", in that map
order. -/
def negEntry : EngineEntry :=
  { llm := { id := "chatgpt", name := "ChatGPT", color := "#10a37f" },
    results := { sentiment := some "negative" } }

def posEntry : EngineEntry :=
  { llm := { id := "gemini", name := "Google Gemini", color := "#4285f4" },
    results := { sentiment := some "positive" } }

def posEntryUpper : EngineEntry :=
  { llm := { id := "claude", name := "Claude", color := "#cc785c" },
    results := { sentiment := some "Positive" } }

/-! ## The claims -/

/-- C1: for every brief with `L` named leaders, `C` named competitors and
`E ≥ 1` selected engines, the planned total equals
`E*(1 + 3*L + C) + E`, and the number of analysis-gateway calls the run
dispatches equals that total. -/
theorem C1_planned_total_matches_dispatch (fd : FormData) (s : SelectedLLMs)
    (aw : Nat → FetchOutcome) (sem : String → SemrushOutcome)
    (h : 1 ≤ (selectedLLMList s).length) :
    totalQueries fd (selectedLLMList s)
      = (selectedLLMList s).length
          * (1 + 3 * (namedLeaders fd).length + (namedCompetitors fd).length)
        + (selectedLLMList s).length
    ∧ (runAnalysis fd s aw sem none).calls.length = totalQueries fd (selectedLLMList s) := by
  constructor
  · simp only [totalQueries]
    ring
  · rw [runAnalysis_none_eq fd s aw sem (by omega)]
    exact taskList_length fd (selectedLLMList s)

theorem C1_witness :
    1 ≤ (selectedLLMList defaultSelection).length
    ∧ (totalQueries acmeForm (selectedLLMList defaultSelection)
        = (selectedLLMList defaultSelection).length
            * (1 + 3 * (namedLeaders acmeForm).length + (namedCompetitors acmeForm).length)
          + (selectedLLMList defaultSelection).length
      ∧ (runAnalysis acmeForm defaultSelection failAW noSem none).calls.length
          = totalQueries acmeForm (selectedLLMList defaultSelection)) :=
  ⟨by decide, C1_planned_total_matches_dispatch acmeForm defaultSelection failAW noSem (by decide)⟩

/-- C2: tasks run one at a time in the fixed planner order (company per
engine, then per named leader and per engine the reputation/press/social
triple, then podcast per engine, then per named competitor and per engine
one competitor task), and before dispatching the i-th task (1-indexed) a
progress event with `current = i` and the planned total is emitted. -/
theorem C2_order_and_progress (fd : FormData) (s : SelectedLLMs)
    (aw : Nat → FetchOutcome) (sem : String → SemrushOutcome)
    (h : selectedLLMList s ≠ []) :
    (runAnalysis fd s aw sem none).calls = taskList fd (selectedLLMList s)
    ∧ (runAnalysis fd s aw sem none).log =
        (if fd.website ≠ "" then
          [⟨0, totalQueries fd (selectedLLMList s), "Fetching SEMRush data..."⟩] else [])
        ++ mkProg (totalQueries fd (selectedLLMList s)) 0 (msgList fd (selectedLLMList s))
    ∧ (msgList fd (selectedLLMList s)).length = totalQueries fd (selectedLLMList s)
    ∧ ∀ i, i < totalQueries fd (selectedLLMList s) →
        (mkProg (totalQueries fd (selectedLLMList s)) 0 (msgList fd (selectedLLMList s))).get? i
          = ((msgList fd (selectedLLMList s)).get? i).map
              fun m => ⟨i + 1, totalQueries fd (selectedLLMList s), m⟩ := by
  have hlen : ¬(selectedLLMList s).length = 0 := fun hc => h (List.length_eq_zero.mp hc)
  refine ⟨?_, ?_, msgList_length fd (selectedLLMList s), ?_⟩
  · rw [runAnalysis_none_eq fd s aw sem hlen]
  · rw [runAnalysis_none_eq fd s aw sem hlen]
  · intro i hi
    rw [mkProg_get]
    simp only [Nat.zero_add]

theorem C2_witness :
    (selectedLLMList defaultSelection ≠ []
      ∧ totalQueries acmeForm (selectedLLMList defaultSelection) = 10
      ∧ (taskList acmeForm (selectedLLMList defaultSelection)).map
            (fun t => (t.llmName, t.analysisType))
          = [("ChatGPT", .entity), ("Google Gemini", .entity),
             ("ChatGPT", .leadership), ("ChatGPT", .press), ("ChatGPT", .social),
             ("Google Gemini", .leadership), ("Google Gemini", .press), ("Google Gemini", .social),
             ("ChatGPT", .podcast), ("Google Gemini", .podcast)])
    ∧ ((runAnalysis acmeForm defaultSelection failAW noSem none).calls
        = taskList acmeForm (selectedLLMList defaultSelection)
      ∧ (runAnalysis acmeForm defaultSelection failAW noSem none).log =
          (if acmeForm.website ≠ "" then
            [⟨0, totalQueries acmeForm (selectedLLMList defaultSelection), "Fetching SEMRush data..."⟩] else [])
          ++ mkProg (totalQueries acmeForm (selectedLLMList defaultSelection)) 0
              (msgList acmeForm (selectedLLMList defaultSelection))
      ∧ (msgList acmeForm (selectedLLMList defaultSelection)).length
          = totalQueries acmeForm (selectedLLMList defaultSelection)
      ∧ ∀ i, i < totalQueries acmeForm (selectedLLMList defaultSelection) →
          (mkProg (totalQueries acmeForm (selectedLLMList defaultSelection)) 0
              (msgList acmeForm (selectedLLMList defaultSelection))).get? i
            = ((msgList acmeForm (selectedLLMList defaultSelection)).get? i).map
                fun m => ⟨i + 1, totalQueries acmeForm (selectedLLMList defaultSelection), m⟩) :=
  ⟨⟨by decide, by decide, by decide⟩,
   C2_order_and_progress acmeForm defaultSelection failAW noSem (by decide)⟩

/-- C3: a gateway failure on task i never aborts the run — all N planned
tasks are dispatched, the run ends without error, the report holds
exactly N result entries in task order, and the entry of a failed task is
the sentinel result (`error = true`, zero scores, sentiment "unknown",
recommendations "Analysis failed"). -/
theorem C3_failure_isolated (fd : FormData) (s : SelectedLLMs)
    (aw : Nat → FetchOutcome) (sem : String → SemrushOutcome)
    (h : selectedLLMList s ≠ []) :
    (runAnalysis fd s aw sem none).error = none
    ∧ (runAnalysis fd s aw sem none).calls = taskList fd (selectedLLMList s)
    ∧ ∃ rep, (runAnalysis fd s aw sem none).results = some rep
        ∧ reportResultCount rep = totalQueries fd (selectedLLMList s)
        ∧ ∀ i, i < totalQueries fd (selectedLLMList s) →
            (reportFlat rep).get? i = some (analyzeQuery (aw i))
            ∧ (isFailure (aw i) = true →
                ∃ msg, analyzeQuery (aw i) = sentinelResult msg
                  ∧ (sentinelResult msg).error = true
                  ∧ (sentinelResult msg).confidenceScore = some 0
                  ∧ (sentinelResult msg).sentimentScore = some 0
                  ∧ (sentinelResult msg).sentiment = some "unknown"
                  ∧ (sentinelResult msg).recommendations = some "Analysis failed") := by
  have hlen : ¬(selectedLLMList s).length = 0 := fun hc => h (List.length_eq_zero.mp hc)
  rw [runAnalysis_none_eq fd s aw sem hlen]
  refine ⟨rfl, rfl, runReport fd (selectedLLMList s) aw sem, rfl, ?_, ?_⟩
  · rw [reportResultCount, runReport_flat, outSeg_length]
  · intro i hi
    constructor
    · rw [runReport_flat, outSeg_get aw (totalQueries fd (selectedLLMList s)) 0 i hi,
        Nat.zero_add]
    · intro hfail
      obtain ⟨msg, hmsg⟩ := analyzeQuery_of_failure (aw i) hfail
      exact ⟨msg, hmsg, rfl, rfl, rfl, rfl, rfl⟩

theorem C3_witness :
    selectedLLMList defaultSelection ≠ []
    ∧ isFailure (failAW 0) = true
    ∧ ((runAnalysis acmeForm defaultSelection failAW noSem none).error = none
      ∧ (runAnalysis acmeForm defaultSelection failAW noSem none).calls
          = taskList acmeForm (selectedLLMList defaultSelection)
      ∧ ∃ rep, (runAnalysis acmeForm defaultSelection failAW noSem none).results = some rep
          ∧ reportResultCount rep = totalQueries acmeForm (selectedLLMList defaultSelection)
          ∧ ∀ i, i < totalQueries acmeForm (selectedLLMList defaultSelection) →
              (reportFlat rep).get? i = some (analyzeQuery (failAW i))
              ∧ (isFailure (failAW i) = true →
                  ∃ msg, analyzeQuery (failAW i) = sentinelResult msg
                    ∧ (sentinelResult msg).error = true
                    ∧ (sentinelResult msg).confidenceScore = some 0
                    ∧ (sentinelResult msg).sentimentScore = some 0
                    ∧ (sentinelResult msg).sentiment = some "unknown"
                    ∧ (sentinelResult msg).recommendations = some "Analysis failed")) :=
  ⟨by decide, rfl,
   C3_failure_isolated acmeForm defaultSelection failAW noSem (by decide)⟩

/-- C4 counterexample: when no JSON object can be decoded from the
gateway's response text, the stored outcome is NOT the network-failure
sentinel: its `error` flag is false, both scores are 5 (not 0) and the
sentiment is "neutral" (not "unknown"), falsifying the claim at this
input. -/
theorem C4_counterexample :
    (analyzeQuery (.response (analyzeHandler (.completed "no json here" none)))).error = false
    ∧ (analyzeQuery (.response (analyzeHandler (.completed "no json here" none)))).confidenceScore
        = some 5
    ∧ (analyzeQuery (.response (analyzeHandler (.completed "no json here" none)))).sentimentScore
        = some 5
    ∧ (analyzeQuery (.response (analyzeHandler (.completed "no json here" none)))).sentiment
        = some "neutral" :=
  ⟨rfl, rfl, rfl, rfl⟩

/-- C4 (amended): a decode failure is special-cased — `api/analyze.js`
returns the `parseFallback` body (a non-error result with both scores 5,
sentiment "neutral" and a `_parseError` marker) with HTTP 200, so the
client stores a result that is never equal to the failure sentinel; only
a non-ok response or a thrown fetch goes through the sentinel path. -/
theorem C4_decode_fallback (text : String) :
    analyzeHandler (.completed text none) = .ok (parseFallback text)
    ∧ analyzeQuery (.response (analyzeHandler (.completed text none))) = parseFallback text
    ∧ (parseFallback text).error = false
    ∧ (parseFallback text).confidenceScore = some 5
    ∧ (parseFallback text).sentimentScore = some 5
    ∧ (parseFallback text).sentiment = some "neutral"
    ∧ (parseFallback text).parseError = true
    ∧ (∀ msg, parseFallback text ≠ sentinelResult msg)
    ∧ (∀ msg, analyzeQuery (.netErr msg) = sentinelResult msg) := by
  refine ⟨rfl, rfl, rfl, rfl, rfl, rfl, rfl, ?_, fun msg => rfl⟩
  intro msg heq
  have herr := congrArg AnalysisResult.error heq
  simp [parseFallback, sentinelResult] at herr

/-- C5 counterexample: with an empty company name and a non-empty engine
selection, `runAnalysis` raises no validation error and dispatches
gateway calls (2 here: one company and one podcast task on the single
engine) — empty company name does not make planning fail. -/
theorem C5_counterexample :
    initialFormData.companyName = ""
    ∧ (runAnalysis initialFormData chatgptOnly failAW noSem none).error = none
    ∧ (runAnalysis initialFormData chatgptOnly failAW noSem none).calls.length = 2 := by
  refine ⟨rfl, ?_, ?_⟩
  · rw [runAnalysis_none_eq initialFormData chatgptOnly failAW noSem (by decide)]
  · rw [runAnalysis_none_eq initialFormData chatgptOnly failAW noSem (by decide),
      taskList_length]
    decide

/-- C5 (amended): an empty engine selection fails the run with the
validation message before any task executes (no gateway call, no
progress, no report), while an empty company name is guarded only in the
UI — the run button is disabled — and `runAnalysis` itself performs no
company-name validation. -/
theorem C5_validation_guards :
    (∀ (fd : FormData) (aw : Nat → FetchOutcome) (sem : String → SemrushOutcome)
        (rx : Option Nat) (s : SelectedLLMs), selectedLLMList s = [] →
      runAnalysis fd s aw sem rx =
        { results := none, error := some "Please select at least one AI search engine",
          calls := [], log := [], outcomes := [] })
    ∧ (∀ fd : FormData, fd.companyName = "" → runButtonDisabled false fd = true) := by
  constructor
  · intro fd aw sem rx s hs
    rw [runAnalysis]
    rw [if_pos (by rw [hs]; rfl)]
  · intro fd hfd
    simp [runButtonDisabled, hfd]

theorem C5_witness :
    selectedLLMList noSelection = []
    ∧ runAnalysis initialFormData noSelection failAW noSem none =
        { results := none, error := some "Please select at least one AI search engine",
          calls := [], log := [], outcomes := [] }
    ∧ initialFormData.companyName = ""
    ∧ runButtonDisabled false initialFormData = true :=
  ⟨by decide,
   C5_validation_guards.1 initialFormData failAW noSem none noSelection (by decide),
   rfl,
   C5_validation_guards.2 initialFormData rfl⟩

/-- C6 counterexample: on a map whose single entry has
`confidenceScore = 0` and `sentimentScore = 7`, the code's
`calculateAvgScore` falls back to the sentiment score (JS `||` treats a
zero confidence as falsy) and returns 7.0, while the claim's rule —
fall back only when confidence is absent — gives 0. -/
theorem C6_counterexample :
    calculateAvgScore [zeroConfEntry] = 7
    ∧ averageScoreClaimed [zeroConfEntry] = 0 := by
  constructor
  · norm_num [calculateAvgScore, zeroConfEntry, pickedScore, jsOrQ, toFixed1, List.filter]
  · norm_num [averageScoreClaimed, zeroConfEntry, claimedScore, toFixed1, List.filter]

/-- C6 (amended): `calculateAvgScore` is the mean, rounded to one
decimal, of the qualifying entries, where an entry's value is its
confidence score when present and non-zero, else its sentiment score
when present and non-zero (the fallback also fires on a zero
confidence); entries whose value is not positive are excluded, and with
no qualifying entry the result is 0.  In particular scores [8, 6, 0]
average to 7.0 and a map of only zero/error entries yields 0. -/
theorem C6_average_score :
    (∀ byLLM, calculateAvgScore byLLM = averageScoreAmended byLLM)
    ∧ calculateAvgScore [confEntry8, confEntry6, confEntry0] = 7
    ∧ calculateAvgScore [errorEntry, emptyEntry, confEntry0] = 0 := by
  refine ⟨?_,
    by norm_num [calculateAvgScore, confEntry8, confEntry6, confEntry0, pickedScore, jsOrQ,
      toFixed1, List.filter],
    by norm_num [calculateAvgScore, errorEntry, emptyEntry, confEntry0, sentinelResult,
      pickedScore, jsOrQ, toFixed1, List.filter]⟩
  intro byLLM
  simp only [calculateAvgScore, averageScoreAmended, filterMap_qualifying]

/-- C7 counterexample: on the map whose sentiments are, in iteration
order, "negative" then "positive" (a genuine 1–1 tie), the code returns
"positive" — the first key of the pre-seeded counts object — while the
claim's tie rule (first-encountered sentiment in map order) gives
"negative". -/
theorem C7_counterexample :
    getOverallSentiment [negEntry, posEntry] = "positive"
    ∧ majoritySentimentClaimed [negEntry, posEntry] = "negative"
    ∧ ((sentimentsOf [negEntry, posEntry]).map strToLower).count "negative" = 1
    ∧ ((sentimentsOf [negEntry, posEntry]).map strToLower).count "positive" = 1
    ∧ ("positive" : String) ≠ "negative" := by
  refine ⟨?_, ?_, ?_, ?_, ?_⟩ <;> decide

/-- C7 (amended): `getOverallSentiment` counts the truthy sentiments
case-insensitively and returns a sentiment of maximal count; ties are
broken by the counts object's key order — the pre-seeded keys "positive",
"neutral", "negative" first, then other sentiments in first-encountered
order — not by map-iteration order; with no sentiments it returns the
sentinel "N/A". -/
theorem C7_majority_sentiment :
    getOverallSentiment [] = "N/A"
    ∧ (∀ (company : List EngineEntry) (s : String), sentimentsOf company ≠ [] →
        s ∈ sentimentsOf company →
        ((sentimentsOf company).map strToLower).count (strToLower s)
          ≤ ((sentimentsOf company).map strToLower).count (getOverallSentiment company))
    ∧ getOverallSentiment [posEntryUpper, posEntry, negEntry] = "positive"
    ∧ getOverallSentiment [negEntry, posEntry] = "positive" := by
  refine ⟨by decide, ?_, by decide, by decide⟩
  intro company s h hs
  exact getOverallSentiment_majority company h s hs

theorem C7_witness :
    (sentimentsOf [negEntry, posEntry] ≠ []
      ∧ "negative" ∈ sentimentsOf [negEntry, posEntry])
    ∧ ((sentimentsOf [negEntry, posEntry]).map strToLower).count (strToLower "negative")
        ≤ ((sentimentsOf [negEntry, posEntry]).map strToLower).count
            (getOverallSentiment [negEntry, posEntry]) :=
  ⟨⟨by decide, by decide⟩,
   C7_majority_sentiment.2.1 [negEntry, posEntry] "negative" (by decide) (by decide)⟩

/-- C8: an unexpected internal failure (a defect firing while rendering
the query of some task of the run) propagates through the surrounding
`try`/`catch` as a single terminal error, the run aborts, and no partial
report is produced — `results` stays absent. -/
theorem C8_internal_defect_aborts (fd : FormData) (s : SelectedLLMs)
    (aw : Nat → FetchOutcome) (sem : String → SemrushOutcome) (j : Nat)
    (h : selectedLLMList s ≠ []) (hj : j < totalQueries fd (selectedLLMList s)) :
    (runAnalysis fd s aw sem (some j)).results = none
    ∧ (runAnalysis fd s aw sem (some j)).error
        = some ("Analysis failed: " ++ internalDefectMsg) := by
  rw [runAnalysis_defect_eq fd s aw sem j (fun hc => h (List.length_eq_zero.mp hc)) hj]
  exact ⟨rfl, rfl⟩

theorem C8_witness :
    (selectedLLMList defaultSelection ≠ []
      ∧ 3 < totalQueries acmeForm (selectedLLMList defaultSelection))
    ∧ ((runAnalysis acmeForm defaultSelection failAW noSem (some 3)).results = none
      ∧ (runAnalysis acmeForm defaultSelection failAW noSem (some 3)).error
          = some ("Analysis failed: " ++ internalDefectMsg)) :=
  ⟨⟨by decide, by decide⟩,
   C8_internal_defect_aborts acmeForm defaultSelection failAW noSem 3 (by decide) (by decide)⟩

/-- C9: a backlink fetch that fails (non-ok response or thrown fetch) or
targets a missing domain yields `null`; the run never aborts on it and
never escalates it (the run's outcome apart from the stored backlink data
is the same whatever the SEMRush oracle answers); backlink fetches are
not counted in the planned total (which ignores the website fields) nor
in the progress counter (the emitted log does not depend on the SEMRush
outcomes). -/
theorem C9_backlinks_isolated :
    (∀ out, fetchSemrushData "" out = none)
    ∧ (∀ domain, fetchSemrushData domain .notOk = none)
    ∧ (∀ domain msg, fetchSemrushData domain (.threw msg) = none)
    ∧ (∀ (fd : FormData) (llms : List LLM) (w : String),
        totalQueries { fd with website := w } llms = totalQueries fd llms)
    ∧ (∀ (fd : FormData) (s : SelectedLLMs) (aw : Nat → FetchOutcome)
          (sem sem2 : String → SemrushOutcome), selectedLLMList s ≠ [] →
        (runAnalysis fd s aw sem none).error = none
        ∧ (runAnalysis fd s aw sem none).log = (runAnalysis fd s aw sem2 none).log
        ∧ (runAnalysis fd s aw sem none).calls = (runAnalysis fd s aw sem2 none).calls)
    ∧ (∀ (fd : FormData) (s : SelectedLLMs) (aw : Nat → FetchOutcome)
          (sem : String → SemrushOutcome), selectedLLMList s ≠ [] →
        (∀ d, fetchSemrushData d (sem d) = none) →
        ∃ rep, (runAnalysis fd s aw sem none).results = some rep
          ∧ rep.semrushData = none
          ∧ ∀ c ∈ rep.competitors, c.semrushData = none) := by
  refine ⟨?_, ?_, ?_, ?_, ?_, ?_⟩
  · intro out; simp [fetchSemrushData]
  · intro domain
    by_cases hd : domain = "" <;> simp [fetchSemrushData, hd]
  · intro domain msg
    by_cases hd : domain = "" <;> simp [fetchSemrushData, hd]
  · intro fd llms w; rfl
  · intro fd s aw sem sem2 h
    have hlen : ¬(selectedLLMList s).length = 0 := fun hc => h (List.length_eq_zero.mp hc)
    rw [runAnalysis_none_eq fd s aw sem hlen, runAnalysis_none_eq fd s aw sem2 hlen]
    exact ⟨rfl, rfl, rfl⟩
  · intro fd s aw sem h hsem
    have hlen : ¬(selectedLLMList s).length = 0 := fun hc => h (List.length_eq_zero.mp hc)
    rw [runAnalysis_none_eq fd s aw sem hlen]
    refine ⟨runReport fd (selectedLLMList s) aw sem, rfl, ?_, ?_⟩
    · show (if fd.website ≠ "" then fetchSemrushData fd.website (sem fd.website) else none) = none
      split_ifs
      · exact hsem fd.website
      · rfl
    · intro c hc
      exact compReportsSeg_semrush aw sem (selectedLLMList s) hsem (namedCompetitors fd) _ c hc

theorem C9_witness :
    (selectedLLMList defaultSelection ≠ [] ∧ (∀ d, fetchSemrushData d (noSem d) = none))
    ∧ ((runAnalysis acmeForm defaultSelection failAW noSem none).error = none
      ∧ (runAnalysis acmeForm defaultSelection failAW noSem none).log
          = (runAnalysis acmeForm defaultSelection failAW (fun _ => .threw "down") none).log
      ∧ (runAnalysis acmeForm defaultSelection failAW noSem none).calls
          = (runAnalysis acmeForm defaultSelection failAW (fun _ => .threw "down") none).calls)
    ∧ (∃ rep, (runAnalysis acmeForm defaultSelection failAW noSem none).results = some rep
        ∧ rep.semrushData = none
        ∧ ∀ c ∈ rep.competitors, c.semrushData = none) :=
  have hsem : ∀ d, fetchSemrushData d (noSem d) = none :=
    fun d => C9_backlinks_isolated.2.1 d
  ⟨⟨by decide, hsem⟩,
   C9_backlinks_isolated.2.2.2.2.1 acmeForm defaultSelection failAW noSem
     (fun _ => .threw "down") (by decide),
   C9_backlinks_isolated.2.2.2.2.2 acmeForm defaultSelection failAW noSem (by decide) hsem⟩

/-- C10: starting from the initial form state, every form operation keeps
the leadership list length between 1 and 5 (add is a no-op at 5 entries,
remove is a no-op at 1 entry) and the competitor list length at most 3
(add is a no-op at 3 entries), so a run sees at most 5 named leaders and
3 named competitors. -/
theorem C10_form_bounds :
    FormInv initialFormData
    ∧ (∀ (op : FormOp) (fd : FormData), FormInv fd → FormInv (applyFormOp op fd))
    ∧ (∀ fd : FormData, fd.leadership.length = 5 → addLeadership fd = fd)
    ∧ (∀ (fd : FormData) (i : Nat), fd.leadership.length = 1 → removeLeadership fd i = fd)
    ∧ (∀ fd : FormData, fd.competitors.length = 3 → addCompetitor fd = fd)
    ∧ (∀ fd : FormData, FormInv fd →
        (namedLeaders fd).length ≤ 5 ∧ (namedCompetitors fd).length ≤ 3) := by
  refine ⟨⟨by decide, by decide, by decide⟩, formInv_preserved, ?_, ?_, ?_, ?_⟩
  · intro fd h5
    rw [addLeadership, if_neg (by omega)]
  · intro fd i h1
    rw [removeLeadership, if_neg (by omega)]
  · intro fd h3
    rw [addCompetitor, if_neg (by omega)]
  · intro fd h
    obtain ⟨h1, h2, h3⟩ := h
    exact ⟨le_trans (List.length_filter_le _ _) h2, le_trans (List.length_filter_le _ _) h3⟩

theorem C10_witness :
    FormInv initialFormData
    ∧ FormInv (applyFormOp .addLeader initialFormData)
    ∧ (namedLeaders initialFormData).length ≤ 5
    ∧ (namedCompetitors initialFormData).length ≤ 3 :=
  ⟨C10_form_bounds.1,
   C10_form_bounds.2.1 .addLeader initialFormData C10_form_bounds.1,
   (C10_form_bounds.2.2.2.2.2 initialFormData C10_form_bounds.1).1,
   (C10_form_bounds.2.2.2.2.2 initialFormData C10_form_bounds.1).2⟩
